import Mathlib

/-!
# Verification of the literature_agent validation-and-reconciliation core

Shallow embedding of the validation engine of the literature_agent repository:
the JSON response extractor, the decision-vocabulary construction, the decision
and metadata validators, and the pass/fail reconciliation (split) functions,
together with proofs and refutations of the stated properties.

Sources embedded here:
* src/bin/common/validation.py : validate_json_response, split_by_qc,
  handle_error, validate_decision_response, get_common_variations
* src/bin/utils.py : handle_error, validate_decision_response
* src/bin/extract_metadata.py : validate_metadata_response, sanitize_text
* src/bin/common/models.py : the DOI pattern

Python dictionaries are modelled as association lists with overwrite-in-place
insertion (updating an existing key keeps its position, a new key is appended,
lookup is unambiguous because keys stay unique), Python exceptions as an
explicit error type threaded through Except, and Python objects reachable from
several names as an explicit store where reference identity matters.
-/

namespace LiteratureAgent

/-- Model of a Python exception escaping one of the embedded functions.
`validationError` is the ValidationError class raised by the code itself;
`typeError`, `keyError` and `attributeError` model the built-in exceptions the
code can raise by accident (item assignment on a non-dict, a missing dict key,
`.strip()` on a non-string). -/
inductive PyError where
  | validationError (msg : String)
  | typeError
  | keyError
  | attributeError
deriving Repr, DecidableEq

/-- Model of a Python/JSON value as handled by the validators.  Numeric JSON
values are modelled as integers; this loses nothing the validators inspect. -/
inductive PyVal where
  | none
  | bool (b : Bool)
  | int (n : Int)
  | str (s : String)
  | list (items : List PyVal)
  | dict (fields : List (String × PyVal))
deriving Repr

/-- Python dictionary lookup `d.get(k)` on an association list. -/
def pyGet? {α : Type} (d : List (String × α)) (k : String) : Option α :=
  (d.find? (fun p => p.1 == k)).map (fun p => p.2)

/-- Whether the key is present: Python `k in d`. -/
def hasKeyB {α : Type} (d : List (String × α)) (k : String) : Bool :=
  (d.find? (fun p => p.1 == k)).isSome

/-- Python dictionary assignment `d[k] = v`: overwrite in place if the key
exists (keeping its position), append otherwise. -/
def pyInsert {α : Type} (d : List (String × α)) (k : String) (v : α) :
    List (String × α) :=
  if hasKeyB d k then d.map (fun p => if p.1 == k then (k, v) else p)
  else d ++ [(k, v)]

/-- Python truthiness `bool(v)` for the modelled values. -/
def pyTruthy : PyVal → Bool
  | .none => false
  | .bool b => b
  | .int n => n != 0
  | .str s => s != ""
  | .list items => !items.isEmpty
  | .dict fields => !fields.isEmpty

/-- Python `isinstance(v, dict)`. -/
def isDict : PyVal → Bool
  | .dict _ => true
  | _ => false

/-- The single-quote character, obtained by code point to keep sources clean. -/
def squoteChar : Char := Char.ofNat 39

/-- The double-quote character. -/
def dquoteChar : Char := Char.ofNat 34

/-- The characters Python `str.strip()` removes. -/
def isPySpace (c : Char) : Bool :=
  c == ' ' || c == '\t' || c == '\n' || c == '\r' || c == '\x0b' || c == '\x0c'

/-- Python `str.strip()` on a character list. -/
def pyStripL (s : List Char) : List Char :=
  ((s.dropWhile isPySpace).reverse.dropWhile isPySpace).reverse

/-- Python `str.strip()` on a string. -/
def pyStripS (s : String) : String := ⟨pyStripL s.data⟩

/-- Python `str.lower()` (ASCII). -/
def pyLower (s : String) : String := ⟨s.data.map Char.toLower⟩

/-- Python `str.upper()` (ASCII). -/
def pyUpper (s : String) : String := ⟨s.data.map Char.toUpper⟩

/-- Python `str.capitalize()`: first character uppercased, the rest lowered. -/
def pyCapitalize (s : String) : String :=
  match s.data with
  | [] => ""
  | c :: rest => ⟨c.toUpper :: rest.map Char.toLower⟩

/-- Worker for `pyTitle`: a letter is uppercased when the previous character
was not a letter, lowercased otherwise. -/
def pyTitleAux (prevAlpha : Bool) : List Char → List Char
  | [] => []
  | c :: rest =>
      (if c.isAlpha then (if prevAlpha then c.toLower else c.toUpper) else c) ::
        pyTitleAux c.isAlpha rest

/-- Python `str.title()` (ASCII). -/
def pyTitle (s : String) : String := ⟨pyTitleAux false s.data⟩

/-- Python `str(v)` for the modelled values; container rendering is an opaque
placeholder (it is only ever used as a failed vocabulary lookup or inside an
error message, and never collides with a vocabulary word). -/
def pyStr : PyVal → String
  | .none => "None"
  | .bool true => "True"
  | .bool false => "False"
  | .int n => toString n
  | .str s => s
  | .list _ => "[...]"
  | .dict _ => "\x7b...\x7d"

namespace Validation

/-!
## split_by_qc and handle_error from src/bin/common/validation.py

`split_by_qc(articles, response_pass, allow_errors, merge_key)` iterates the
article batch; for an article whose merge-key value is found in
`response_pass` it copies every field of the validated record onto the article
inside a `try` that catches `KeyError` and `ValidationError`; the outcome of
one `setattr(item, f, getattr(response_pass[k], f))` is modelled as data
carried by the validated record (`CopyOutcome`).  The Python code appends the
article to `articles_fail` and `continue`s the *inner* field loop on such an
exception, then unconditionally appends the article to `articles_pass` after
the loop; the appended entries alias the same article object, so all of them
show the final state of the article, which the embedding reproduces by
appending the final article value `failCount` times.
-/

/-- Outcome of copying one named field of a validated record onto an article:
success with the copied value, or one of the two exceptions the surrounding
`try` catches. -/
inductive CopyOutcome where
  | ok (v : String)
  | keyError
  | validationError
deriving Repr, DecidableEq

/-- A validated record in `response_pass`: its `model_fields` in order, each
with the outcome its copy produces. -/
structure QcRecord where
  fields : List (String × CopyOutcome)
deriving Repr

/-- An article of the original batch: its merge-key value (the attribute named
by `merge_key`) and its remaining attributes. -/
structure ArticleRecord where
  key : String
  attrs : List (String × String)
deriving Repr, DecidableEq

/-- Embedding of `handle_error(item, error_msg, allow_errors)` from
src/bin/common/validation.py: in tolerant mode it only logs (no annotation is
written), in strict mode it raises ValidationError. -/
def handle_error (_item : ArticleRecord) (errorMsg : String)
    (allowErrors : Bool) : Except PyError Unit :=
  if allowErrors then .ok () else .error (.validationError errorMsg)

/-- Python `setattr(item, f, v)` on the modelled article. -/
def setAttr (item : ArticleRecord) (f v : String) : ArticleRecord :=
  { item with attrs := pyInsert item.attrs f v }

/-- The inner field-copy loop of `split_by_qc`: returns the article after all
successful copies together with the number of times it was appended to
`articles_fail`. -/
def copyFieldsLoop (allowErrors : Bool) (item : ArticleRecord) (failCount : Nat) :
    List (String × CopyOutcome) → Except PyError (ArticleRecord × Nat)
  | [] => .ok (item, failCount)
  | (f, .ok v) :: rest =>
      copyFieldsLoop allowErrors (setAttr item f v) failCount rest
  | (f, .keyError) :: rest => do
      _ ← handle_error item
        ("Expected field " ++ f ++ " not found in QC pass data.") allowErrors
      copyFieldsLoop allowErrors item (failCount + 1) rest
  | (f, .validationError) :: rest => do
      _ ← handle_error item
        ("Validation error for field " ++ f ++ " in QC pass data.") allowErrors
      copyFieldsLoop allowErrors item (failCount + 1) rest

/-- The outer loop of `split_by_qc` with its two accumulators. -/
def splitLoop (responsePass : List (String × QcRecord)) (allowErrors : Bool)
    (articlesPass articlesFail : List ArticleRecord) :
    List ArticleRecord → Except PyError (List ArticleRecord × List ArticleRecord)
  | [] => .ok (articlesPass, articlesFail)
  | item :: rest =>
      match pyGet? responsePass item.key with
      | some rec => do
          let (item2, n) ← copyFieldsLoop allowErrors item 0 rec.fields
          splitLoop responsePass allowErrors (articlesPass ++ [item2])
            (articlesFail ++ List.replicate n item2) rest
      | Option.none => do
          _ ← handle_error item
            ("Article with merge key " ++ item.key ++
              " not found among passing articles.") allowErrors
          splitLoop responsePass allowErrors articlesPass
            (articlesFail ++ [item]) rest

/-- Embedding of `split_by_qc(articles, response_pass, allow_errors)` from
src/bin/common/validation.py (lines 56-107). -/
def split_by_qc (articles : List ArticleRecord)
    (responsePass : List (String × QcRecord)) (allowErrors : Bool) :
    Except PyError (List ArticleRecord × List ArticleRecord) :=
  splitLoop responsePass allowErrors [] [] articles

end Validation

/-- C1.  Partition totality fails on the code: in tolerant mode, an article
whose merge key is in the pass map but whose single field copy raises KeyError
is appended to `articles_fail` and then, because the `continue` only advances
the inner field loop, also appended to `articles_pass`; the one-article batch
yields lists of total length 2, and the merge key 10.1234/test appears twice
across the two outputs.  The repository test
`test_split_with_exception_during_setattr` expects the article in exactly one
list. -/
theorem c1_split_by_qc_totality_violated :
    Validation.split_by_qc [⟨"10.1234/test", []⟩]
      [("10.1234/test", ⟨[("title", Validation.CopyOutcome.keyError)]⟩)] true =
      .ok ([⟨"10.1234/test", []⟩], [⟨"10.1234/test", []⟩]) ∧
    ¬ (1 + 1 = ([(⟨"10.1234/test", []⟩ : Validation.ArticleRecord)]).length) := by
  constructor
  · rfl
  · decide

/-- C2.  Copy-error containment fails on the code: an article whose field copy
raises ValidationError in tolerant mode is appended to `articles_fail`, but the
unconditional `articles_pass.append(item)` after the inner loop still places it
in `articles_pass` as well, so the record with a copy error is also treated as
passed.  The repository test `test_split_with_exception_during_setattr`
asserts `article not in articles_pass` for exactly this situation. -/
theorem c2_copy_error_article_also_passes :
    Validation.split_by_qc [⟨"10.9999/x", [("title", "T")]⟩]
      [("10.9999/x",
        ⟨[("screening_decision", Validation.CopyOutcome.validationError)]⟩)]
      true =
      .ok ([⟨"10.9999/x", [("title", "T")]⟩], [⟨"10.9999/x", [("title", "T")]⟩]) := by
  rfl

/-- Python `set(...)` rendering used in the invalid-value message: distinct values in
first-occurrence order (CPython set iteration order is unspecified; this fixes
one deterministic rendering). -/
def dedupFirst : List String → List String
  | [] => []
  | v :: rest => if v ∈ rest then dedupFirst rest else v :: dedupFirst rest

/-- Single-quote wrapping used both by the vocabulary construction and by the
`str(set(...))` rendering. -/
def squote (s : String) : String :=
  String.singleton squoteChar ++ s ++ String.singleton squoteChar

/-- Double-quote wrapping. -/
def dquote (s : String) : String :=
  String.singleton dquoteChar ++ s ++ String.singleton dquoteChar

/-- Trailing-period variant. -/
def dotted (s : String) : String := s ++ "."

/-- Model of `str(set(values))` in first-occurrence order. -/
def renderSet (vals : List String) : String :=
  "\x7b" ++ String.intercalate ", " ((dedupFirst vals).map squote) ++ "\x7d"

namespace Utils

/-- Embedding of `handle_error(d, error_msg, stage, allow_errors)` from src/bin/utils.py
(lines 45-64): tolerant mode writes the annotation `d[stage + "_error"] =
error_msg` directly into the record and returns it — which raises TypeError
when the record is not a dict — and strict mode raises ValidationError. -/
def handle_error (d : PyVal) (errorMsg stage : String) (allowErrors : Bool) :
    Except PyError PyVal :=
  if allowErrors then
    match d with
    | .dict fields =>
        .ok (.dict (pyInsert fields (stage ++ "_error") (.str errorMsg)))
    | _ => .error .typeError
  else
    .error (.validationError
      ("Validation failed for " ++ stage ++ " with value " ++ pyStr d ++ ": " ++
        errorMsg))

end Utils

/-- The loop of `validate_decision_response`, whose body is textually identical
in src/bin/utils.py (lines 217-263) and src/bin/common/validation.py (lines
210-268); the two variants differ only in which `handle_error` the module
binds, so the handler is a parameter. -/
def vdrLoop (handler : PyVal → String → String → Bool → Except PyError PyVal)
    (allowErrors : Bool) (stage : String) (mappings : List (String × String))
    (articlesPass articlesFail : List (String × PyVal)) :
    List (String × PyVal) →
      Except PyError (List (String × PyVal) × List (String × PyVal))
  | [] => .ok (articlesPass, articlesFail)
  | (k, d) :: rest =>
      match d with
      | PyVal.dict fields =>
          if fields.isEmpty then do
            let v ← handler d "Empty or non-dict response." stage allowErrors
            vdrLoop handler allowErrors stage mappings articlesPass
              (pyInsert articlesFail k v) rest
          else if !(hasKeyB fields "decision" && hasKeyB fields "reasoning") then do
            let v ← handler d "Missing keys (decision and/or reasoning)." stage
              allowErrors
            vdrLoop handler allowErrors stage mappings articlesPass
              (pyInsert articlesFail k v) rest
          else
            let decision := pyStr ((pyGet? fields "decision").getD PyVal.none)
            if decision == "" then do
              let v ← handler d "Empty or non-string response." stage allowErrors
              vdrLoop handler allowErrors stage mappings articlesPass
                (pyInsert articlesFail k v) rest
            else
              match pyGet? mappings (pyLower (pyStripS decision)) with
              | Option.none => do
                  let v ← handler d
                    ("Invalid priority value. Expected " ++
                      renderSet (mappings.map (fun p => p.2)) ++ ".")
                    stage allowErrors
                  vdrLoop handler allowErrors stage mappings articlesPass
                    (pyInsert articlesFail k v) rest
              | some canon =>
                  vdrLoop handler allowErrors stage mappings
                    (pyInsert articlesPass k
                      (PyVal.dict (pyInsert fields "decision" (PyVal.str canon))))
                    articlesFail rest
      | _ => do
          let v ← handler d "Empty or non-dict response." stage allowErrors
          vdrLoop handler allowErrors stage mappings articlesPass
            (pyInsert articlesFail k v) rest

namespace Utils

/-- Embedding of `validate_decision_response(decisions, allow_errors, stage,
decision_mappings)` from src/bin/utils.py: its error branches call the
four-parameter `handle_error` of the same module, which matches. -/
def validate_decision_response (decisions : List (String × PyVal))
    (allowErrors : Bool) (stage : String) (mappings : List (String × String)) :
    Except PyError (List (String × PyVal) × List (String × PyVal)) :=
  vdrLoop handle_error allowErrors stage mappings [] [] decisions

end Utils

namespace Validation

/-- In src/bin/common/validation.py, `validate_decision_response` passes four
positional arguments `(d, msg, stage, allow_errors)` to the `handle_error`
defined in that same module, whose signature is
`handle_error(item, error_msg, allow_errors=False)`; Python raises
`TypeError: handle_error() takes from 2 to 3 positional arguments but 4 were
given` before the handler body runs, in both tolerance modes. -/
def handleErrorBadArity (_d : PyVal) (_errorMsg _stage : String)
    (_allowErrors : Bool) : Except PyError PyVal :=
  .error .typeError

/-- Embedding of `validate_decision_response` from src/bin/common/validation.py (lines
210-268), with the arity mismatch of its `handle_error` calls modelled. -/
def validate_decision_response (decisions : List (String × PyVal))
    (allowErrors : Bool) (stage : String) (mappings : List (String × String)) :
    Except PyError (List (String × PyVal) × List (String × PyVal)) :=
  vdrLoop handleErrorBadArity allowErrors stage mappings [] [] decisions

/-- Body of the first loop of `get_common_variations`: the five case-variant
assignments `d[v] = d[v.lower()] = d[v.upper()] = d[v.capitalize()] =
d[v.title()] = v`. -/
def caseInserts (acc : List (String × String)) (v : String) :
    List (String × String) :=
  pyInsert
    (pyInsert (pyInsert (pyInsert (pyInsert acc v v) (pyLower v) v)
      (pyUpper v) v) (pyCapitalize v) v)
    (pyTitle v) v

/-- Body of the second loop of `get_common_variations`: for one item `(k, v)`
of `d`, the assignments into `update` for the quoted and period variants. -/
def wrapInserts (acc : List (String × String)) (p : String × String) :
    List (String × String) :=
  pyInsert (pyInsert (pyInsert acc (squote p.1) p.2) (dquote p.1) p.2)
    (dotted p.1) p.2

/-- Body of `d.update(update)`: one assignment per item of `update`. -/
def dictUpdateStep (acc : List (String × String)) (p : String × String) :
    List (String × String) :=
  pyInsert acc p.1 p.2

/-- Embedding of `get_common_variations(expected_values)` from src/bin/common/validation.py
(lines 271-297): a dict built from the case variants of every value, then
extended with the quote-wrapped and period-suffixed variants of every key. -/
def get_common_variations (expectedValues : List String) :
    List (String × String) :=
  let d := expectedValues.foldl caseInserts []
  let update := d.foldl wrapInserts []
  update.foldl dictUpdateStep d

/-- Whether a field copy succeeds. -/
def CopyOutcome.isOk : CopyOutcome → Bool
  | .ok _ => true
  | _ => false

/-- The error condition `split_by_qc` meets at one article: merge key absent
from the pass map, or some field copy raising. -/
def splitErrB (responsePass : List (String × QcRecord)) (a : ArticleRecord) :
    Bool :=
  match pyGet? responsePass a.key with
  | Option.none => true
  | some rec => rec.fields.any (fun p => !p.2.isOk)

end Validation

/-- The per-record error condition of `validate_decision_response`: empty or
non-dict record, missing keys, empty coerced decision, or unmapped decision. -/
def decisionFailsB (mappings : List (String × String)) (d : PyVal) : Bool :=
  match d with
  | PyVal.dict fields =>
      fields.isEmpty ||
      !(hasKeyB fields "decision" && hasKeyB fields "reasoning") ||
      pyStr ((pyGet? fields "decision").getD PyVal.none) == "" ||
      (pyGet? mappings
        (pyLower (pyStripS (pyStr ((pyGet? fields "decision").getD PyVal.none))))).isNone
  | _ => true

theorem hasKeyB_iff {α : Type} (d : List (String × α)) (k : String) :
    hasKeyB d k = true ↔ ∃ v, (k, v) ∈ d := by
  unfold hasKeyB
  rw [List.find?_isSome]
  constructor
  · rintro ⟨⟨k2, v⟩, hmem, hk⟩
    simp only [beq_iff_eq] at hk
    exact ⟨v, by simpa [hk] using hmem⟩
  · rintro ⟨v, hv⟩
    exact ⟨(k, v), hv, by simp⟩

theorem hasKeyB_false_iff {α : Type} (d : List (String × α)) (k : String) :
    hasKeyB d k = false ↔ ∀ v, (k, v) ∉ d := by
  rw [← Bool.not_eq_true, not_iff_comm, hasKeyB_iff]
  simp

theorem pyInsert_eq_append {α : Type} {d : List (String × α)} {k : String}
    (v : α) (h : hasKeyB d k = false) : pyInsert d k v = d ++ [(k, v)] := by
  unfold pyInsert
  rw [h]
  simp

theorem hasKeyB_append {α : Type} (d₁ d₂ : List (String × α)) (k : String) :
    hasKeyB (d₁ ++ d₂) k = (hasKeyB d₁ k || hasKeyB d₂ k) := by
  unfold hasKeyB
  rw [List.find?_append]
  cases h : d₁.find? (fun p => p.1 == k) <;> simp [Option.or]

theorem find?_overwrite_self {α : Type} (d : List (String × α)) (k : String)
    (v : α) :
    (d.map (fun p => if p.1 == k then (k, v) else p)).find?
        (fun p => p.1 == k) =
      if hasKeyB d k then some (k, v) else Option.none := by
  induction d with
  | nil => simp [hasKeyB]
  | cons p rest ih =>
      by_cases hp : p.1 = k
      · have hp2 : (p.1 == k) = true := by simp [hp]
        rw [List.map_cons, if_pos hp2]
        simp [List.find?_cons, hasKeyB, hp2]
      · have hp2 : (p.1 == k) = false := by simp [hp]
        rw [List.map_cons, if_neg (by simp [hp2])]
        simp only [List.find?_cons, hp2]
        rw [ih]
        unfold hasKeyB
        simp only [List.find?_cons, hp2]

theorem find?_overwrite_ne {α : Type} (d : List (String × α)) {k k2 : String}
    (v : α) (h : k2 ≠ k) :
    (d.map (fun p => if p.1 == k then (k, v) else p)).find?
        (fun p => p.1 == k2) =
      d.find? (fun p => p.1 == k2) := by
  induction d with
  | nil => rfl
  | cons p rest ih =>
      by_cases hp : p.1 = k
      · have hp2 : (p.1 == k) = true := by simp [hp]
        have hph : (p.1 == k2) = false := by simp [hp, Ne.symm h]
        have hkh : ((k : String) == k2) = false := by simp [Ne.symm h]
        rw [List.map_cons, if_pos hp2]
        simp only [List.find?_cons, hph, hkh]
        exact ih
      · have hp2 : (p.1 == k) = false := by simp [hp]
        rw [List.map_cons, if_neg (by simp [hp2])]
        simp only [List.find?_cons]
        cases hq : (p.1 == k2) with
        | true => simp
        | false => simpa using ih

theorem find?_self_of_not_hasKey {α : Type} {d : List (String × α)}
    {k : String} (h : hasKeyB d k = false) :
    d.find? (fun p => p.1 == k) = Option.none := by
  unfold hasKeyB at h
  cases hf : d.find? (fun p => p.1 == k) with
  | none => rfl
  | some q => rw [hf] at h; simp at h

theorem pyGet?_pyInsert_self {α : Type} (d : List (String × α)) (k : String)
    (v : α) : pyGet? (pyInsert d k v) k = some v := by
  unfold pyInsert
  by_cases h : hasKeyB d k
  · rw [if_pos h]
    unfold pyGet?
    rw [find?_overwrite_self, if_pos h]
    rfl
  · rw [if_neg h]
    unfold pyGet?
    rw [List.find?_append, find?_self_of_not_hasKey (by simpa using h)]
    simp [Option.or, List.find?]

theorem pyGet?_pyInsert_ne {α : Type} (d : List (String × α)) {k k2 : String}
    (v : α) (h : k2 ≠ k) : pyGet? (pyInsert d k v) k2 = pyGet? d k2 := by
  unfold pyInsert
  by_cases hk : hasKeyB d k
  · rw [if_pos hk]
    unfold pyGet?
    rw [find?_overwrite_ne _ _ h]
  · rw [if_neg hk]
    unfold pyGet?
    rw [List.find?_append]
    cases hq : d.find? (fun p => p.1 == k2) with
    | some p => simp [Option.or]
    | none =>
        have hk2 : (((k, v) : String × α).1 == k2) = false := by
          simp [Ne.symm h]
        rw [List.find?_cons_of_neg _ (by simp [hk2])]
        simp [Option.or]

theorem mem_pyInsert {α : Type} {d : List (String × α)} {k : String} {v : α}
    {p : String × α} (h : p ∈ pyInsert d k v) : p = (k, v) ∨ p ∈ d := by
  unfold pyInsert at h
  by_cases hk : hasKeyB d k
  · rw [if_pos hk] at h
    obtain ⟨q, hq, hqeq⟩ := List.mem_map.mp h
    by_cases hq1 : q.1 = k
    · left
      rw [← hqeq]
      simp [hq1]
    · right
      have hq2 : (q.1 == k) = false := by simp [hq1]
      rw [← hqeq]
      simpa [hq2] using hq
  · rw [if_neg hk] at h
    rcases List.mem_append.mp h with hmem | hmem
    · exact Or.inr hmem
    · exact Or.inl (by simpa using hmem)

theorem hasKeyB_pyInsert_self {α : Type} (d : List (String × α)) (k : String)
    (v : α) : hasKeyB (pyInsert d k v) k = true := by
  have h := pyGet?_pyInsert_self d k v
  unfold pyGet? at h
  unfold hasKeyB
  cases hf : (pyInsert d k v).find? (fun p => p.1 == k) with
  | none => rw [hf] at h; simp at h
  | some q => simp

theorem hasKeyB_pyInsert_mono {α : Type} {d : List (String × α)} {k2 : String}
    (k : String) (v : α) (h : hasKeyB d k2 = true) :
    hasKeyB (pyInsert d k v) k2 = true := by
  by_cases hk : k2 = k
  · rw [hk]
    exact hasKeyB_pyInsert_self d k v
  · rw [hasKeyB_iff] at h
    obtain ⟨w, hw⟩ := h
    rw [hasKeyB_iff]
    unfold pyInsert
    by_cases hd : hasKeyB d k
    · rw [if_pos hd]
      refine ⟨w, ?_⟩
      have heq : ((k2, w) : String × α) =
          (if ((k2, w) : String × α).1 == k then (k, v) else (k2, w)) := by
        simp [hk]
      rw [heq]
      exact List.mem_map.mpr ⟨(k2, w), hw, rfl⟩
    · rw [if_neg hd]
      exact ⟨w, List.mem_append.mpr (Or.inl hw)⟩

/-- Whether an Except value is an error (the call raised). -/
def isErr {ε α : Type} : Except ε α → Bool
  | .error _ => true
  | .ok _ => false

theorem isErr_iff_exists {ε α : Type} (r : Except ε α) :
    isErr r = true ↔ ∃ e, r = .error e := by
  cases r with
  | error e => simp [isErr]
  | ok v => simp [isErr]

namespace Validation

theorem copyFieldsLoop_strict_error (fields : List (String × CopyOutcome)) :
    ∀ (item : ArticleRecord) (n : Nat),
      fields.any (fun p => !p.2.isOk) = true →
      isErr (copyFieldsLoop false item n fields) = true := by
  induction fields with
  | nil => intro item n h; simp at h
  | cons hd rest ih =>
      intro item n h
      obtain ⟨f, o⟩ := hd
      cases o with
      | ok v =>
          simp [CopyOutcome.isOk] at h
          exact ih (setAttr item f v) n (by simpa using h)
      | keyError => rfl
      | validationError => rfl

theorem copyFieldsLoop_all_ok (fields : List (String × CopyOutcome)) :
    ∀ (item : ArticleRecord) (n : Nat) (allow : Bool),
      fields.all (fun p => p.2.isOk) = true →
      ∃ item2, copyFieldsLoop allow item n fields = .ok (item2, n) := by
  induction fields with
  | nil => intro item n allow _; exact ⟨item, rfl⟩
  | cons hd rest ih =>
      intro item n allow h
      obtain ⟨f, o⟩ := hd
      cases o with
      | ok v =>
          simp [CopyOutcome.isOk] at h
          obtain ⟨item2, h2⟩ := ih (setAttr item f v) n allow (by simpa using h)
          exact ⟨item2, by simpa [copyFieldsLoop] using h2⟩
      | keyError => simp [CopyOutcome.isOk] at h
      | validationError => simp [CopyOutcome.isOk] at h

theorem splitLoop_strict_error (articles : List ArticleRecord) :
    ∀ (responsePass : List (String × QcRecord))
      (accPass accFail : List ArticleRecord),
      (∃ a ∈ articles, splitErrB responsePass a = true) →
      isErr (splitLoop responsePass false accPass accFail articles) = true := by
  induction articles with
  | nil => intro rp accPass accFail h; simp at h
  | cons a rest ih =>
      intro rp accPass accFail h
      by_cases ha : splitErrB rp a = true
      · unfold splitErrB at ha
        cases hk : pyGet? rp a.key with
        | none =>
            simp [splitLoop, hk, handle_error, Bind.bind, Except.bind, isErr]
        | some rec =>
            rw [hk] at ha
            have he := copyFieldsLoop_strict_error rec.fields a 0 ha
            rw [isErr_iff_exists] at he
            obtain ⟨e, he⟩ := he
            simp [splitLoop, hk, he, Bind.bind, Except.bind, isErr]
      · have hrest : ∃ b ∈ rest, splitErrB rp b = true := by
          obtain ⟨b, hb, hberr⟩ := h
          rcases List.mem_cons.mp hb with hba | hbrest
          · exact absurd (hba ▸ hberr) ha
          · exact ⟨b, hbrest, hberr⟩
        unfold splitErrB at ha
        cases hk : pyGet? rp a.key with
        | none => simp [hk] at ha
        | some rec =>
            rw [hk] at ha
            have hall : rec.fields.all (fun p => p.2.isOk) = true := by
              rw [List.all_eq_not_any_not]
              simpa using ha
            obtain ⟨item2, h2⟩ := copyFieldsLoop_all_ok rec.fields a 0 false hall
            have hrec := ih rp (accPass ++ [item2]) accFail hrest
            simpa [splitLoop, hk, h2, Bind.bind, Except.bind] using hrec

end Validation

theorem vdrLoop_strict_error (decisions : List (String × PyVal)) :
    ∀ (stage : String) (mappings : List (String × String))
      (accPass accFail : List (String × PyVal)),
      (∃ kd ∈ decisions, decisionFailsB mappings kd.2 = true) →
      isErr (vdrLoop Utils.handle_error false stage mappings accPass accFail
        decisions) = true := by
  induction decisions with
  | nil => intro stage mappings accPass accFail h; simp at h
  | cons kd rest ih =>
      intro stage mappings accPass accFail h
      obtain ⟨k, d⟩ := kd
      by_cases hd : decisionFailsB mappings d = true
      · cases d with
        | dict fields =>
            by_cases h1 : fields.isEmpty
            · simp [vdrLoop, h1, Utils.handle_error, Bind.bind, Except.bind, isErr]
            · by_cases h2 : hasKeyB fields "decision" && hasKeyB fields "reasoning"
              · by_cases h3 :
                  pyStr ((pyGet? fields "decision").getD PyVal.none) == ""
                · simp [vdrLoop, h1, h2, h3, Utils.handle_error, Bind.bind, Except.bind, isErr]
                · cases hm : pyGet? mappings (pyLower (pyStripS (pyStr ((pyGet? fields "decision").getD PyVal.none)))) with
                  | none =>
                      simp [vdrLoop, h1, h2, h3, hm, Utils.handle_error, Bind.bind, Except.bind, isErr]
                  | some canon =>
                      simp [decisionFailsB, h1, h2, h3, hm] at hd
              · simp [vdrLoop, h1, h2, Utils.handle_error, Bind.bind, Except.bind, isErr]
        | none => simp [vdrLoop, Utils.handle_error, Bind.bind, Except.bind, isErr]
        | bool b => simp [vdrLoop, Utils.handle_error, Bind.bind, Except.bind, isErr]
        | int n => simp [vdrLoop, Utils.handle_error, Bind.bind, Except.bind, isErr]
        | str s => simp [vdrLoop, Utils.handle_error, Bind.bind, Except.bind, isErr]
        | list items => simp [vdrLoop, Utils.handle_error, Bind.bind, Except.bind, isErr]
      · have hrest : ∃ b ∈ rest, decisionFailsB mappings b.2 = true := by
          obtain ⟨b, hb, hberr⟩ := h
          rcases List.mem_cons.mp hb with hba | hbrest
          · rw [hba] at hberr
            exact absurd hberr hd
          · exact ⟨b, hbrest, hberr⟩
        cases d with
        | dict fields =>
            by_cases h1 : fields.isEmpty
            · simp [decisionFailsB, h1] at hd
            · by_cases h2 : hasKeyB fields "decision" && hasKeyB fields "reasoning"
              · by_cases h3 :
                  pyStr ((pyGet? fields "decision").getD PyVal.none) == ""
                · simp [decisionFailsB, h1, h2, h3] at hd
                · cases hm : pyGet? mappings (pyLower (pyStripS (pyStr ((pyGet? fields "decision").getD PyVal.none)))) with
                  | none => simp [decisionFailsB, h1, h2, h3, hm] at hd
                  | some canon =>
                      have hrec := ih stage mappings
                        (pyInsert accPass k (PyVal.dict (pyInsert fields "decision" (PyVal.str canon))))
                        accFail hrest
                      simpa [vdrLoop, h1, h2, h3, hm] using hrec
              · simp [decisionFailsB, h1, h2] at hd
        | none => simp [decisionFailsB] at hd
        | bool b => simp [decisionFailsB] at hd
        | int n => simp [decisionFailsB] at hd
        | str s => simp [decisionFailsB] at hd
        | list items => simp [decisionFailsB] at hd

/-- C3.  Strict-mode fail-fast: with `allow_errors = false`, `handle_error`
(both the common/validation.py and the utils.py variant) raises a typed
ValidationError; consequently `split_by_qc` returns no partition as soon as
any article in the batch meets an error condition, and
`validate_decision_response` (utils.py) returns no partition as soon as any
record fails validation. -/
theorem c3_strict_mode_fail_fast :
    (∀ (item : Validation.ArticleRecord) (msg : String),
      Validation.handle_error item msg false = .error (.validationError msg)) ∧
    (∀ (d : PyVal) (msg stage : String),
      ∃ m, Utils.handle_error d msg stage false = .error (.validationError m)) ∧
    (∀ (articles : List Validation.ArticleRecord)
      (responsePass : List (String × Validation.QcRecord)),
      (∃ a ∈ articles, Validation.splitErrB responsePass a = true) →
      ∃ e, Validation.split_by_qc articles responsePass false = .error e) ∧
    (∀ (decisions : List (String × PyVal)) (stage : String)
      (mappings : List (String × String)),
      (∃ kd ∈ decisions, decisionFailsB mappings kd.2 = true) →
      ∃ e, Utils.validate_decision_response decisions false stage mappings =
        .error e) := by
  refine ⟨fun item msg => rfl, fun d msg stage => ⟨_, rfl⟩, ?_, ?_⟩
  · intro articles rp h
    exact (isErr_iff_exists _).mp
      (Validation.splitLoop_strict_error articles rp [] [] h)
  · intro decisions stage mappings h
    exact (isErr_iff_exists _).mp
      (vdrLoop_strict_error decisions stage mappings [] [] h)

/-- Witness for C3 at concrete inputs: one article whose merge key is missing
from the pass map, and one decisions map holding a `None` record. -/
theorem c3_strict_mode_fail_fast_witness :
    (Validation.handle_error ⟨"10.1/w", []⟩ "boom" false =
      .error (.validationError "boom")) ∧
    (∃ e, Validation.split_by_qc [⟨"10.1/w", []⟩] [] false = .error e) ∧
    (∃ e, Utils.validate_decision_response [("10.1/w", PyVal.none)] false
      "screening" [] = .error e) :=
  ⟨c3_strict_mode_fail_fast.1 ⟨"10.1/w", []⟩ "boom",
    c3_strict_mode_fail_fast.2.2.1 [⟨"10.1/w", []⟩] []
      ⟨⟨"10.1/w", []⟩, List.mem_singleton.mpr rfl, rfl⟩,
    c3_strict_mode_fail_fast.2.2.2 [("10.1/w", PyVal.none)] "screening" []
      ⟨("10.1/w", PyVal.none), List.mem_singleton.mpr rfl, rfl⟩⟩

theorem hasKeyB_singleton {α : Type} (k k2 : String) (v : α) :
    hasKeyB [(k, v)] k2 = (k == k2) := by
  unfold hasKeyB
  simp only [List.find?_cons]
  cases h : ((k : String) == k2) <;> simp [h]

/-- A fail-map entry carrying the per-record `stage + "_error"` annotation. -/
def annotatedP (stage : String) (v : PyVal) : Prop :=
  ∃ fields m, v = PyVal.dict fields ∧
    pyGet? fields (stage ++ "_error") = some (PyVal.str m)

theorem vdrLoop_tolerant_complete (decisions : List (String × PyVal)) :
    ∀ (stage : String) (mappings : List (String × String))
      (accPass accFail : List (String × PyVal)),
      (∀ kd ∈ decisions, isDict kd.2 = true) →
      (decisions.map Prod.fst).Nodup →
      (∀ kd ∈ decisions,
        hasKeyB accPass kd.1 = false ∧ hasKeyB accFail kd.1 = false) →
      (∀ kv ∈ accFail, annotatedP stage kv.2) →
      ∃ p f,
        vdrLoop Utils.handle_error true stage mappings accPass accFail
          decisions = .ok (p, f) ∧
        p.length + f.length =
          accPass.length + accFail.length + decisions.length ∧
        (∀ kv ∈ f, annotatedP stage kv.2) := by
  induction decisions with
  | nil =>
      intro stage mappings accPass accFail _ _ _ hann
      exact ⟨accPass, accFail, rfl, by simp, hann⟩
  | cons kd rest ih =>
      intro stage mappings accPass accFail hdict hnd hfresh hann
      obtain ⟨k, d⟩ := kd
      have hdH : isDict d = true := hdict (k, d) (List.mem_cons_self _ _)
      cases d with
      | dict fields =>
          have hkrest : k ∉ rest.map Prod.fst := by
            have := hnd
            simp only [List.map_cons, List.nodup_cons] at this
            exact this.1
          have hndrest : (rest.map Prod.fst).Nodup := by
            have := hnd
            simp only [List.map_cons, List.nodup_cons] at this
            exact this.2
          have hfreshP : hasKeyB accPass k = false :=
            (hfresh (k, .dict fields) (List.mem_cons_self _ _)).1
          have hfreshF : hasKeyB accFail k = false :=
            (hfresh (k, .dict fields) (List.mem_cons_self _ _)).2
          have hkne : ∀ kd2 ∈ rest, kd2.1 ≠ k := by
            intro kd2 hkd2 hcontra
            exact hkrest (hcontra ▸ List.mem_map_of_mem _ hkd2)
          have failStep : ∀ (msg : String),
              (∀ kd2 ∈ rest,
                hasKeyB accPass kd2.1 = false ∧
                hasKeyB
                  (pyInsert accFail k
                    (PyVal.dict (pyInsert fields (stage ++ "_error")
                      (PyVal.str msg)))) kd2.1 = false) := by
            intro msg kd2 hkd2
            refine ⟨(hfresh kd2 (List.mem_cons_of_mem _ hkd2)).1, ?_⟩
            rw [pyInsert_eq_append _ hfreshF, hasKeyB_append,
              (hfresh kd2 (List.mem_cons_of_mem _ hkd2)).2,
              hasKeyB_singleton]
            simp [Ne.symm (hkne kd2 hkd2)]
          have failAnn : ∀ (msg : String) kv,
              kv ∈ pyInsert accFail k
                (PyVal.dict (pyInsert fields (stage ++ "_error")
                  (PyVal.str msg))) →
              annotatedP stage kv.2 := by
            intro msg kv hkv
            rcases mem_pyInsert hkv with hkv | hkv
            · rw [hkv]
              exact ⟨pyInsert fields (stage ++ "_error") (PyVal.str msg), msg,
                rfl, pyGet?_pyInsert_self _ _ _⟩
            · exact hann kv hkv
          have failLen : ∀ (v : PyVal),
              (pyInsert accFail k v).length = accFail.length + 1 := by
            intro v
            rw [pyInsert_eq_append _ hfreshF]
            simp
          by_cases h1 : fields.isEmpty
          · obtain ⟨p, f, heq, hlen, hannf⟩ := ih stage mappings accPass
              (pyInsert accFail k (PyVal.dict (pyInsert fields
                (stage ++ "_error") (PyVal.str "Empty or non-dict response."))))
              (fun kd2 h2 => hdict kd2 (List.mem_cons_of_mem _ h2)) hndrest
              (failStep _) (failAnn _)
            refine ⟨p, f, ?_, ?_, hannf⟩
            · simpa [vdrLoop, h1, Utils.handle_error, Bind.bind, Except.bind]
                using heq
            · rw [hlen]
              rw [failLen]
              simp only [List.length_cons]
              omega
          · by_cases h2 : hasKeyB fields "decision" && hasKeyB fields "reasoning"
            · by_cases h3 :
                pyStr ((pyGet? fields "decision").getD PyVal.none) == ""
              · obtain ⟨p, f, heq, hlen, hannf⟩ := ih stage mappings accPass
                  (pyInsert accFail k (PyVal.dict (pyInsert fields
                    (stage ++ "_error")
                    (PyVal.str "Empty or non-string response."))))
                  (fun kd2 hh => hdict kd2 (List.mem_cons_of_mem _ hh)) hndrest
                  (failStep _) (failAnn _)
                refine ⟨p, f, ?_, ?_, hannf⟩
                · simpa [vdrLoop, h1, h2, h3, Utils.handle_error, Bind.bind,
                    Except.bind] using heq
                · rw [hlen]
                  rw [failLen]
                  simp only [List.length_cons]
                  omega
              · cases hm : pyGet? mappings (pyLower (pyStripS (pyStr
                  ((pyGet? fields "decision").getD PyVal.none)))) with
                | none =>
                    obtain ⟨p, f, heq, hlen, hannf⟩ := ih stage mappings accPass
                      (pyInsert accFail k (PyVal.dict (pyInsert fields
                        (stage ++ "_error")
                        (PyVal.str ("Invalid priority value. Expected " ++
                          renderSet (mappings.map (fun p => p.2)) ++ ".")))))
                      (fun kd2 hh => hdict kd2 (List.mem_cons_of_mem _ hh))
                      hndrest (failStep _) (failAnn _)
                    refine ⟨p, f, ?_, ?_, hannf⟩
                    · simpa [vdrLoop, h1, h2, h3, hm, Utils.handle_error,
                        Bind.bind, Except.bind] using heq
                    · rw [hlen]
                      rw [failLen]
                      simp only [List.length_cons]
                      omega
                | some canon =>
                    have hfreshRest : ∀ kd2 ∈ rest,
                        hasKeyB (pyInsert accPass k (PyVal.dict (pyInsert
                          fields "decision" (PyVal.str canon)))) kd2.1 =
                          false ∧
                        hasKeyB accFail kd2.1 = false := by
                      intro kd2 hkd2
                      refine ⟨?_, (hfresh kd2 (List.mem_cons_of_mem _ hkd2)).2⟩
                      rw [pyInsert_eq_append _ hfreshP, hasKeyB_append,
                        (hfresh kd2 (List.mem_cons_of_mem _ hkd2)).1,
                        hasKeyB_singleton]
                      simp [Ne.symm (hkne kd2 hkd2)]
                    obtain ⟨p, f, heq, hlen, hannf⟩ := ih stage mappings
                      (pyInsert accPass k (PyVal.dict (pyInsert fields
                        "decision" (PyVal.str canon)))) accFail
                      (fun kd2 hh => hdict kd2 (List.mem_cons_of_mem _ hh))
                      hndrest hfreshRest hann
                    refine ⟨p, f, ?_, ?_, hannf⟩
                    · simpa [vdrLoop, h1, h2, h3, hm] using heq
                    · have hplen : (pyInsert accPass k (PyVal.dict (pyInsert
                        fields "decision" (PyVal.str canon)))).length =
                          accPass.length + 1 := by
                        rw [pyInsert_eq_append _ hfreshP]
                        simp
                      rw [hlen, hplen]
                      simp only [List.length_cons]
                      omega
            · obtain ⟨p, f, heq, hlen, hannf⟩ := ih stage mappings accPass
                (pyInsert accFail k (PyVal.dict (pyInsert fields
                  (stage ++ "_error")
                  (PyVal.str "Missing keys (decision and/or reasoning)."))))
                (fun kd2 hh => hdict kd2 (List.mem_cons_of_mem _ hh)) hndrest
                (failStep _) (failAnn _)
              refine ⟨p, f, ?_, ?_, hannf⟩
              · simpa [vdrLoop, h1, h2, Utils.handle_error, Bind.bind,
                  Except.bind] using heq
              · rw [hlen]
                rw [failLen]
                simp only [List.length_cons]
                omega
      | none => simp [isDict] at hdH
      | bool b => simp [isDict] at hdH
      | int n => simp [isDict] at hdH
      | str s => simp [isDict] at hdH
      | list items => simp [isDict] at hdH

/-- C4 fails as stated: in tolerant mode, a record that is `None` (or any
non-dict) meets the "Empty or non-dict response" error, and `handle_error`
then executes `d[stage + "_error"] = error_msg` on the non-dict record, which
raises TypeError — an exception escapes to the caller and no pass/fail
partition is produced. -/
theorem c4_tolerant_non_dict_record_raises :
    Utils.validate_decision_response [("10.1/a", PyVal.none)] true "screening"
      [] = .error .typeError := by
  rfl

/-- C4 (amended).  Whenever `allow_qc_errors = true` and every record in the
batch is a dict (possibly empty), every per-record validation error is
converted into a `stage + "_error"` annotation on that record, no exception
escapes to the caller, and the batch completes with a pass/fail partition
covering all records; a non-dict record instead raises TypeError
(`c4_tolerant_non_dict_record_raises`). -/
theorem c4_tolerant_annotation_amended (decisions : List (String × PyVal))
    (stage : String) (mappings : List (String × String))
    (hdict : ∀ kd ∈ decisions, isDict kd.2 = true)
    (hnd : (decisions.map Prod.fst).Nodup) :
    ∃ p f,
      Utils.validate_decision_response decisions true stage mappings =
        .ok (p, f) ∧
      p.length + f.length = decisions.length ∧
      (∀ kv ∈ f, ∃ fields m, kv.2 = PyVal.dict fields ∧
        pyGet? fields (stage ++ "_error") = some (PyVal.str m)) := by
  obtain ⟨p, f, heq, hlen, hann⟩ := vdrLoop_tolerant_complete decisions stage
    mappings [] [] hdict hnd (fun kd _ => ⟨rfl, rfl⟩) (fun kv hkv => by
      simp at hkv)
  exact ⟨p, f, heq, by simpa using hlen, hann⟩

/-- Witness for the amended C4: a two-record batch, one valid screening
decision and one empty dict, completes in tolerant mode with one pass and one
annotated fail. -/
theorem c4_tolerant_annotation_amended_witness :
    (∀ kd ∈ [("10.1/a", PyVal.dict
        [("decision", PyVal.str "TRUE"), ("reasoning", PyVal.str "ok")]),
      ("10.1/b", PyVal.dict [])], isDict kd.2 = true) ∧
    ∃ p f,
      Utils.validate_decision_response
        [("10.1/a", PyVal.dict
          [("decision", PyVal.str "TRUE"), ("reasoning", PyVal.str "ok")]),
          ("10.1/b", PyVal.dict [])] true "screening"
        (Validation.get_common_variations ["true", "false"]) = .ok (p, f) ∧
      p.length + f.length = 2 ∧
      (∀ kv ∈ f, ∃ fields m, kv.2 = PyVal.dict fields ∧
        pyGet? fields "screening_error" = some (PyVal.str m)) :=
  ⟨by decide, c4_tolerant_annotation_amended
    [("10.1/a", PyVal.dict
      [("decision", PyVal.str "TRUE"), ("reasoning", PyVal.str "ok")]),
      ("10.1/b", PyVal.dict [])] "screening"
    (Validation.get_common_variations ["true", "false"]) (by decide)
    (by decide)⟩

/-- C7.  On src/bin/common/validation.py (the cited variant), a record whose
decision does not normalize into the vocabulary is not routed to the fail map:
every error branch of `validate_decision_response` there calls the
three-parameter `handle_error` of that module with four positional arguments,
so Python raises TypeError even in tolerant mode.  The utils.py variant of the
same body (second conjunct) shows the intended behavior: the record is
annotated and routed to the fail map, never the pass map. -/
theorem c7_common_decision_error_path_raises_type_error :
    (Validation.validate_decision_response
      [("10.1/a", PyVal.dict
        [("decision", PyVal.str "urgent"), ("reasoning", PyVal.str "r")])]
      true "priority"
      (Validation.get_common_variations ["low", "medium", "high"]) =
      .error .typeError) ∧
    (∃ m, Utils.validate_decision_response
      [("10.1/a", PyVal.dict
        [("decision", PyVal.str "urgent"), ("reasoning", PyVal.str "r")])]
      true "priority"
      (Validation.get_common_variations ["low", "medium", "high"]) =
      .ok ([], [("10.1/a", PyVal.dict
        [("decision", PyVal.str "urgent"), ("reasoning", PyVal.str "r"),
          ("priority_error", PyVal.str m)])])) := by
  exact ⟨rfl, ⟨_, rfl⟩⟩

/-!
## Decision Vocabulary (claim C6)

`caseVariants`, `wrapVariants` and `allVariants` name the variant sets the
spec describes, for use in theorem statements; they mirror the insertions
`get_common_variations` performs.
-/

/-- The five case variants of a canonical value. -/
def caseVariants (v : String) : List String :=
  [v, pyLower v, pyUpper v, pyCapitalize v, pyTitle v]

/-- The wrapped variants of one key. -/
def wrapVariants (k : String) : List String :=
  [squote k, dquote k, dotted k]

/-- Every variant generated for a canonical value: the case variants and each
of those wrapped in single quotes, double quotes, or suffixed with a period. -/
def allVariants (v : String) : List String :=
  caseVariants v ++ (caseVariants v).flatMap wrapVariants

/-- Distinct canonical values generate disjoint variant sets. -/
def variantsDisjoint (values : List String) : Prop :=
  ∀ u ∈ values, ∀ v ∈ values, u ≠ v → ∀ w ∈ allVariants u, w ∉ allVariants v

theorem mem_caseInserts {acc : List (String × String)} {v : String}
    {p : String × String} (h : p ∈ Validation.caseInserts acc v) :
    p ∈ acc ∨ (p.1 ∈ caseVariants v ∧ p.2 = v) := by
  unfold Validation.caseInserts at h
  rcases mem_pyInsert h with h5 | h
  · exact Or.inr (by rw [h5]; exact ⟨by simp [caseVariants], rfl⟩)
  rcases mem_pyInsert h with h4 | h
  · exact Or.inr (by rw [h4]; exact ⟨by simp [caseVariants], rfl⟩)
  rcases mem_pyInsert h with h3 | h
  · exact Or.inr (by rw [h3]; exact ⟨by simp [caseVariants], rfl⟩)
  rcases mem_pyInsert h with h2 | h
  · exact Or.inr (by rw [h2]; exact ⟨by simp [caseVariants], rfl⟩)
  rcases mem_pyInsert h with h1 | h
  · exact Or.inr (by rw [h1]; exact ⟨by simp [caseVariants], rfl⟩)
  exact Or.inl h

theorem mem_wrapInserts {acc : List (String × String)} {q : String × String}
    {p : String × String} (h : q ∈ Validation.wrapInserts acc p) :
    q ∈ acc ∨ (q.1 ∈ wrapVariants p.1 ∧ q.2 = p.2) := by
  unfold Validation.wrapInserts at h
  rcases mem_pyInsert h with h3 | h
  · exact Or.inr (by rw [h3]; exact ⟨by simp [wrapVariants], rfl⟩)
  rcases mem_pyInsert h with h2 | h
  · exact Or.inr (by rw [h2]; exact ⟨by simp [wrapVariants], rfl⟩)
  rcases mem_pyInsert h with h1 | h
  · exact Or.inr (by rw [h1]; exact ⟨by simp [wrapVariants], rfl⟩)
  exact Or.inl h

theorem hasKeyB_caseInserts_self {acc : List (String × String)} {v w : String}
    (hw : w ∈ caseVariants v) :
    hasKeyB (Validation.caseInserts acc v) w = true := by
  simp only [caseVariants, List.mem_cons, List.not_mem_nil, or_false] at hw
  unfold Validation.caseInserts
  rcases hw with h | h | h | h | h
  · rw [h]
    exact hasKeyB_pyInsert_mono _ _ (hasKeyB_pyInsert_mono _ _
      (hasKeyB_pyInsert_mono _ _ (hasKeyB_pyInsert_mono _ _
        (hasKeyB_pyInsert_self _ _ _))))
  · rw [h]
    exact hasKeyB_pyInsert_mono _ _ (hasKeyB_pyInsert_mono _ _
      (hasKeyB_pyInsert_mono _ _ (hasKeyB_pyInsert_self _ _ _)))
  · rw [h]
    exact hasKeyB_pyInsert_mono _ _ (hasKeyB_pyInsert_mono _ _
      (hasKeyB_pyInsert_self _ _ _))
  · rw [h]
    exact hasKeyB_pyInsert_mono _ _ (hasKeyB_pyInsert_self _ _ _)
  · rw [h]
    exact hasKeyB_pyInsert_self _ _ _

theorem hasKeyB_caseInserts_mono {acc : List (String × String)} {w : String}
    (v : String) (h : hasKeyB acc w = true) :
    hasKeyB (Validation.caseInserts acc v) w = true :=
  hasKeyB_pyInsert_mono _ _ (hasKeyB_pyInsert_mono _ _
    (hasKeyB_pyInsert_mono _ _ (hasKeyB_pyInsert_mono _ _
      (hasKeyB_pyInsert_mono _ _ h))))

theorem hasKeyB_wrapInserts_self {acc : List (String × String)}
    {p : String × String} {w : String} (hw : w ∈ wrapVariants p.1) :
    hasKeyB (Validation.wrapInserts acc p) w = true := by
  simp only [wrapVariants, List.mem_cons, List.not_mem_nil, or_false] at hw
  unfold Validation.wrapInserts
  rcases hw with h | h | h
  · rw [h]
    exact hasKeyB_pyInsert_mono _ _ (hasKeyB_pyInsert_mono _ _
      (hasKeyB_pyInsert_self _ _ _))
  · rw [h]
    exact hasKeyB_pyInsert_mono _ _ (hasKeyB_pyInsert_self _ _ _)
  · rw [h]
    exact hasKeyB_pyInsert_self _ _ _

theorem hasKeyB_wrapInserts_mono {acc : List (String × String)} {w : String}
    (p : String × String) (h : hasKeyB acc w = true) :
    hasKeyB (Validation.wrapInserts acc p) w = true :=
  hasKeyB_pyInsert_mono _ _ (hasKeyB_pyInsert_mono _ _
    (hasKeyB_pyInsert_mono _ _ h))

theorem foldl_caseInserts_keys_mono (values : List String) :
    ∀ (acc : List (String × String)) (w : String),
      hasKeyB acc w = true →
      hasKeyB (values.foldl Validation.caseInserts acc) w = true := by
  induction values with
  | nil => intro acc w h; exact h
  | cons v rest ih =>
      intro acc w h
      exact ih (Validation.caseInserts acc v) w (hasKeyB_caseInserts_mono v h)

theorem foldl_wrapInserts_keys_mono (items : List (String × String)) :
    ∀ (acc : List (String × String)) (w : String),
      hasKeyB acc w = true →
      hasKeyB (items.foldl Validation.wrapInserts acc) w = true := by
  induction items with
  | nil => intro acc w h; exact h
  | cons p rest ih =>
      intro acc w h
      exact ih (Validation.wrapInserts acc p) w (hasKeyB_wrapInserts_mono p h)

theorem foldl_dictUpdateStep_keys_mono (items : List (String × String)) :
    ∀ (acc : List (String × String)) (w : String),
      hasKeyB acc w = true →
      hasKeyB (items.foldl Validation.dictUpdateStep acc) w = true := by
  induction items with
  | nil => intro acc w h; exact h
  | cons p rest ih =>
      intro acc w h
      exact ih (Validation.dictUpdateStep acc p) w
        (hasKeyB_pyInsert_mono _ _ h)

theorem phase1_keys (values : List String) :
    ∀ (acc : List (String × String)) (v : String), v ∈ values →
      ∀ w ∈ caseVariants v,
        hasKeyB (values.foldl Validation.caseInserts acc) w = true := by
  induction values with
  | nil => intro acc v hv; simp at hv
  | cons u rest ih =>
      intro acc v hv w hw
      rcases List.mem_cons.mp hv with hvu | hvrest
      · rw [List.foldl_cons]
        exact foldl_caseInserts_keys_mono rest (Validation.caseInserts acc u) w
          (hasKeyB_caseInserts_self (hvu ▸ hw))
      · exact ih (Validation.caseInserts acc u) v hvrest w hw

theorem phase2_keys (d : List (String × String)) :
    ∀ (acc : List (String × String)) (p : String × String), p ∈ d →
      ∀ w ∈ wrapVariants p.1,
        hasKeyB (d.foldl Validation.wrapInserts acc) w = true := by
  induction d with
  | nil => intro acc p hp; simp at hp
  | cons q rest ih =>
      intro acc p hp w hw
      rcases List.mem_cons.mp hp with hpq | hprest
      · rw [List.foldl_cons]
        exact foldl_wrapInserts_keys_mono rest (Validation.wrapInserts acc q) w
          (hasKeyB_wrapInserts_self (hpq ▸ hw))
      · exact ih (Validation.wrapInserts acc q) p hprest w hw

theorem phase3_keys_update (update : List (String × String)) :
    ∀ (acc : List (String × String)) (q : String × String), q ∈ update →
      hasKeyB (update.foldl Validation.dictUpdateStep acc) q.1 = true := by
  induction update with
  | nil => intro acc q hq; simp at hq
  | cons r rest ih =>
      intro acc q hq
      rcases List.mem_cons.mp hq with hqr | hqrest
      · rw [List.foldl_cons]
        exact foldl_dictUpdateStep_keys_mono rest
          (Validation.dictUpdateStep acc r) q.1
          (by rw [hqr]; exact hasKeyB_pyInsert_self _ _ _)
      · exact ih (Validation.dictUpdateStep acc r) q hqrest

theorem phase1_inv (V : List String) (values : List String) :
    ∀ (acc : List (String × String)), values ⊆ V →
      (∀ p ∈ acc, p.2 ∈ V ∧ p.1 ∈ caseVariants p.2) →
      ∀ p ∈ values.foldl Validation.caseInserts acc,
        p.2 ∈ V ∧ p.1 ∈ caseVariants p.2 := by
  induction values with
  | nil => intro acc _ hacc p hp; exact hacc p hp
  | cons v rest ih =>
      intro acc hsub hacc p hp
      refine ih (Validation.caseInserts acc v)
        (fun x hx => hsub (List.mem_cons_of_mem _ hx)) ?_ p hp
      intro q hq
      rcases mem_caseInserts hq with hq | ⟨hq1, hq2⟩
      · exact hacc q hq
      · exact ⟨hq2 ▸ hsub (List.mem_cons_self _ _), by rw [hq2]; exact hq1⟩

theorem phase2_inv (V : List String) (d : List (String × String)) :
    ∀ (acc : List (String × String)),
      (∀ p ∈ d, p.2 ∈ V ∧ p.1 ∈ caseVariants p.2) →
      (∀ q ∈ acc, q.2 ∈ V ∧ q.1 ∈ allVariants q.2) →
      ∀ q ∈ d.foldl Validation.wrapInserts acc,
        q.2 ∈ V ∧ q.1 ∈ allVariants q.2 := by
  induction d with
  | nil => intro acc _ hacc q hq; exact hacc q hq
  | cons p rest ih =>
      intro acc hd hacc q hq
      refine ih (Validation.wrapInserts acc p)
        (fun x hx => hd x (List.mem_cons_of_mem _ hx)) ?_ q hq
      intro r hr
      rcases mem_wrapInserts hr with hr | ⟨hr1, hr2⟩
      · exact hacc r hr
      · have hp := hd p (List.mem_cons_self _ _)
        refine ⟨hr2 ▸ hp.1, ?_⟩
        rw [hr2]
        exact List.mem_append.mpr (Or.inr (List.mem_flatMap.mpr ⟨p.1, hp.2, hr1⟩))

theorem phase3_inv (V : List String) (update : List (String × String)) :
    ∀ (acc : List (String × String)),
      (∀ q ∈ update, q.2 ∈ V ∧ q.1 ∈ allVariants q.2) →
      (∀ p ∈ acc, p.2 ∈ V ∧ p.1 ∈ allVariants p.2) →
      ∀ p ∈ update.foldl Validation.dictUpdateStep acc,
        p.2 ∈ V ∧ p.1 ∈ allVariants p.2 := by
  induction update with
  | nil => intro acc _ hacc p hp; exact hacc p hp
  | cons q rest ih =>
      intro acc hup hacc p hp
      refine ih (Validation.dictUpdateStep acc q)
        (fun x hx => hup x (List.mem_cons_of_mem _ hx)) ?_ p hp
      intro r hr
      rcases mem_pyInsert hr with hr | hr
      · have hq := hup q (List.mem_cons_self _ _)
        rw [hr]
        exact hq
      · exact hacc r hr

/-- C6 fails as stated: `get_common_variations` is not well-defined for every
list of canonical values, because a later value overwrites the entries of an
earlier value whose variants collide with its own.  For `["a", "A"]` the
already-canonical value `"a"` maps to `"A"`, not to itself. -/
theorem c6_collision_counterexample :
    pyGet? (Validation.get_common_variations ["a", "A"]) "a" = some "A" ∧
    ("A" : String) ≠ "a" := by
  exact ⟨rfl, by decide⟩

/-- C6 (amended).  Provided distinct canonical values generate disjoint
variant sets, `get_common_variations` sends, for each canonical value `v`,
each of `v`, `lower(v)`, `upper(v)`, `capitalize(v)`, `title(v)`, and each of
those wrapped in single quotes, double quotes, or suffixed with a trailing
period, to `v`; in particular the canonical value maps to itself, and every
generated variant yields the same canonical value. -/
theorem c6_variations_amended (values : List String)
    (hdisj : variantsDisjoint values) (v : String) (hv : v ∈ values)
    (w : String) (hw : w ∈ allVariants v) :
    pyGet? (Validation.get_common_variations values) w = some v := by
  have hgcv : Validation.get_common_variations values =
      ((values.foldl Validation.caseInserts []).foldl Validation.wrapInserts
        []).foldl Validation.dictUpdateStep
        (values.foldl Validation.caseInserts []) := rfl
  have hdinv : ∀ p ∈ values.foldl Validation.caseInserts [],
      p.2 ∈ values ∧ p.1 ∈ caseVariants p.2 :=
    phase1_inv values values [] (fun x hx => hx) (by simp)
  have hupinv : ∀ q ∈ (values.foldl Validation.caseInserts []).foldl
      Validation.wrapInserts [], q.2 ∈ values ∧ q.1 ∈ allVariants q.2 :=
    phase2_inv values (values.foldl Validation.caseInserts []) [] hdinv
      (by simp)
  have hfinv : ∀ p ∈ Validation.get_common_variations values,
      p.2 ∈ values ∧ p.1 ∈ allVariants p.2 := by
    rw [hgcv]
    exact phase3_inv values _ _ hupinv
      (fun p hp => ⟨(hdinv p hp).1,
        List.mem_append.mpr (Or.inl (hdinv p hp).2)⟩)
  have hkey : hasKeyB (Validation.get_common_variations values) w = true := by
    rw [hgcv]
    rcases List.mem_append.mp hw with hcase | hbind
    · exact foldl_dictUpdateStep_keys_mono _ _ w (phase1_keys values [] v hv w hcase)
    · obtain ⟨kcv, hkcv, hwk⟩ := List.mem_flatMap.mp hbind
      have hk2 : hasKeyB (values.foldl Validation.caseInserts []) kcv = true :=
        phase1_keys values [] v hv kcv hkcv
      obtain ⟨u2, hu2⟩ := (hasKeyB_iff _ _).mp hk2
      have hupk : hasKeyB ((values.foldl Validation.caseInserts []).foldl
          Validation.wrapInserts []) w = true :=
        phase2_keys _ [] (kcv, u2) hu2 w hwk
      obtain ⟨x, hx⟩ := (hasKeyB_iff _ _).mp hupk
      exact phase3_keys_update _ _ (w, x) hx
  obtain ⟨q, hfind⟩ : ∃ q,
      (Validation.get_common_variations values).find?
        (fun p => p.1 == w) = some q := by
    unfold hasKeyB at hkey
    cases hf : (Validation.get_common_variations values).find?
        (fun p => p.1 == w) with
    | none => rw [hf] at hkey; simp at hkey
    | some q => exact ⟨q, rfl⟩
  have hq1 : q.1 = w := by simpa [beq_iff_eq] using List.find?_some hfind
  have hqinv := hfinv q (List.mem_of_find?_eq_some hfind)
  have hq2 : q.2 = v := by
    by_contra hne
    exact hdisj q.2 hqinv.1 v hv hne w (hq1 ▸ hqinv.2) hw
  unfold pyGet?
  rw [hfind]
  simp [hq2]

/-- Witness for the amended C6: the screening vocabulary, whose two canonical
values have disjoint variant sets, maps the generated variant "TRUE." back to
"true". -/
theorem c6_variations_amended_witness :
    variantsDisjoint ["true", "false"] ∧
    "TRUE." ∈ allVariants "true" ∧
    pyGet? (Validation.get_common_variations ["true", "false"]) "TRUE." =
      some "true" :=
  ⟨by unfold variantsDisjoint; decide, by decide,
    c6_variations_amended ["true", "false"] (by unfold variantsDisjoint; decide)
      "true" (by decide) "TRUE." (by decide)⟩

/-!
## Response Extractor (claims C5 and C9)

`validate_json_response` from src/bin/common/validation.py (lines 10-53).
`json.loads` is Python library code, not repository code, so the embedding
takes the parser as a parameter `loads`; the theorems assume of it only the
properties they state (C9 assumes it ignores surrounding whitespace).
-/

/-- The backtick character, obtained by code point. -/
def bquoteChar : Char := Char.ofNat 96

namespace Validation

/-- A parsed JSON value as returned by `json.loads`. -/
inductive Json where
  | null
  | bool (b : Bool)
  | num (n : Int)
  | str (s : List Char)
  | arr (items : List Json)
  | obj (fields : List (List Char × Json))

/-- Python `isinstance(item, dict)` on a parsed JSON value. -/
def Json.isObj : Json → Bool
  | .obj _ => true
  | _ => false

/-- The fence-stripping step of `validate_json_response`: remove one layer of
` ```json `, ` ``` ` or single-backtick fencing (then `.strip()`), or return
the text unchanged. -/
def defence (t : List Char) : List Char :=
  if "```json".toList.isPrefixOf t && "```".toList.isSuffixOf t then
    pyStripL ((t.drop 7).take (t.length - 10))
  else if "```".toList.isPrefixOf t && "```".toList.isSuffixOf t then
    pyStripL ((t.drop 3).take (t.length - 6))
  else if "`".toList.isPrefixOf t && "`".toList.isSuffixOf t then
    pyStripL ((t.drop 1).take (t.length - 2))
  else t

/-- Embedding of `validate_json_response(response_text, stage)` from
src/bin/common/validation.py: reject empty or non-string input (modelled as
`Option.none`), strip one fence layer, parse, and enforce the
list-of-dictionaries shape.  It receives no tolerance flag. -/
def validate_json_response (loads : List Char → Option Json)
    (responseText : Option (List Char)) : Except PyError (List Json) :=
  match responseText with
  | Option.none => .error (.validationError "Empty or non-string response.")
  | some t =>
      if t.isEmpty then .error (.validationError "Empty or non-string response.")
      else
        match loads (defence t) with
        | Option.none => .error (.validationError "Response is not valid JSON.")
        | some (Json.arr items) =>
            if items.all Json.isObj then .ok items
            else .error (.validationError
              "Each item in the response list should be a dictionary.")
        | some _ => .error (.validationError "Response should be a list.")

end Validation

namespace Utils

/-- Embedding of `validate_json_response(response_text, stage)` from
src/bin/utils.py (lines 8-42): the input and fence-stripping lines are
textually identical to the common/validation.py variant (so
`Validation.defence` is shared), but the expected top-level container is a
dictionary — `isinstance(response, dict)` — and the elements of that
dictionary are never inspected: the parsed dict is returned whole. -/
def validate_json_response (loads : List Char → Option Validation.Json)
    (responseText : Option (List Char)) :
    Except PyError (List (List Char × Validation.Json)) :=
  match responseText with
  | Option.none => .error (.validationError "Empty or non-string response.")
  | some t =>
      if t.isEmpty then .error (.validationError "Empty or non-string response.")
      else
        match loads (Validation.defence t) with
        | Option.none => .error (.validationError "Response is not valid JSON.")
        | some (Validation.Json.obj fields) => .ok fields
        | some _ =>
            .error (.validationError "Response should be a dictionary.")

end Utils

theorem pyStripL_eq_rdrop (t : List Char) :
    pyStripL t = List.rdropWhile isPySpace (t.dropWhile isPySpace) := rfl

theorem isPrefixOf_iff (l₁ l₂ : List Char) :
    l₁.isPrefixOf l₂ = true ↔ l₁ <+: l₂ := by
  exact List.isPrefixOf_iff_prefix

theorem rdropWhile_front (p : Char → Bool) (l : List Char) :
    List.rdropWhile p l <+: l := by
  exact List.rdropWhile_prefix p l

theorem append_prefix_cancel (l l₁ l₂ : List Char) :
    (l ++ l₁ <+: l ++ l₂) ↔ (l₁ <+: l₂) := by
  exact List.prefix_append_right_inj l

theorem prefix_head {l₁ l₂ : List Char} {c : Char} (h : l₁ <+: l₂)
    (hh : l₁.head? = some c) : l₂.head? = some c := by
  obtain ⟨s, hs⟩ := h
  cases l₁ with
  | nil => simp at hh
  | cons x xs => rw [← hs]; simpa using hh

theorem head_of_pyStripL {t : List Char} {c : Char}
    (h : (pyStripL t).head? = some c) :
    ∃ c0, t.head? = some c0 ∧ (isPySpace c0 = true ∨ c0 = c) := by
  cases t with
  | nil => simp [pyStripL, List.dropWhile] at h
  | cons x xs =>
      by_cases hx : isPySpace x
      · exact ⟨x, rfl, Or.inl hx⟩
      · refine ⟨x, rfl, Or.inr ?_⟩
        have hdw : (x :: xs).dropWhile isPySpace = x :: xs := by
          simp [List.dropWhile_cons, hx]
        have hpre : pyStripL (x :: xs) <+: x :: xs := by
          rw [pyStripL_eq_rdrop, hdw]
          exact rdropWhile_front _ _
        have h2 := prefix_head hpre h
        simpa using h2

theorem not_prefix_of_head_ne {l t : List Char} {c c0 : Char}
    (hl : l.head? = some c) (ht : t.head? = some c0) (hne : c0 ≠ c) :
    l.isPrefixOf t = false := by
  rw [Bool.eq_false_iff]
  intro h
  rw [isPrefixOf_iff] at h
  have h2 := prefix_head h hl
  rw [ht] at h2
  exact hne (by simpa using h2)

/-- C5 fails as stated on one of its two cited sources: the utils.py variant
of `validate_json_response` checks only that the parsed top level is a
dictionary and never inspects its elements, so a response whose container
holds a non-object element — here a dict with the number 5 as a value — is
returned whole without any ValidationError, contradicting the claim that the
function raises whenever any element of the container is not an object. -/
theorem c5_utils_no_element_check_counterexample :
    Utils.validate_json_response
      (fun s => if s = "o".toList then
        some (Validation.Json.obj [("k".toList, Validation.Json.num 5)])
      else Option.none)
      (some "o".toList) =
      .ok [("k".toList, Validation.Json.num 5)] ∧
    Validation.Json.isObj (Validation.Json.num 5) = false := by
  exact ⟨rfl, rfl⟩

/-- C5 (amended).  `validate_json_response` — which does not even receive a
tolerance flag in either variant — raises a ValidationError whenever the
input is not a string or empty, the de-fenced text is not valid JSON, or the
parsed top level is not the expected container: a list in
common/validation.py, a dictionary in utils.py.  The common/validation.py
variant additionally rejects, as a unit, a list holding any non-object
element, and its successful call returns exactly the whole parsed list with
every element a dictionary; the utils.py variant performs no element check
and returns the parsed dictionary whole, its values handled per record
later under the tolerance policy
(`c5_utils_no_element_check_counterexample`). -/
theorem c5_shape_errors_amended (loads : List Char → Option Validation.Json) :
    (Validation.validate_json_response loads Option.none =
      .error (.validationError "Empty or non-string response.")) ∧
    (Validation.validate_json_response loads (some []) =
      .error (.validationError "Empty or non-string response.")) ∧
    (∀ t : List Char, t ≠ [] → loads (Validation.defence t) = Option.none →
      Validation.validate_json_response loads (some t) =
        .error (.validationError "Response is not valid JSON.")) ∧
    (∀ (t : List Char) (j : Validation.Json), t ≠ [] →
      loads (Validation.defence t) = some j →
      (∀ items, j ≠ Validation.Json.arr items) →
      Validation.validate_json_response loads (some t) =
        .error (.validationError "Response should be a list.")) ∧
    (∀ (t : List Char) (items : List Validation.Json), t ≠ [] →
      loads (Validation.defence t) = some (Validation.Json.arr items) →
      items.all Validation.Json.isObj = false →
      Validation.validate_json_response loads (some t) =
        .error (.validationError
          "Each item in the response list should be a dictionary.")) ∧
    (∀ (t : List Char) (items : List Validation.Json),
      Validation.validate_json_response loads (some t) = .ok items →
      loads (Validation.defence t) = some (Validation.Json.arr items) ∧
      items.all Validation.Json.isObj = true) ∧
    (Utils.validate_json_response loads Option.none =
      .error (.validationError "Empty or non-string response.")) ∧
    (Utils.validate_json_response loads (some []) =
      .error (.validationError "Empty or non-string response.")) ∧
    (∀ t : List Char, t ≠ [] → loads (Validation.defence t) = Option.none →
      Utils.validate_json_response loads (some t) =
        .error (.validationError "Response is not valid JSON.")) ∧
    (∀ (t : List Char) (j : Validation.Json), t ≠ [] →
      loads (Validation.defence t) = some j →
      (∀ fields, j ≠ Validation.Json.obj fields) →
      Utils.validate_json_response loads (some t) =
        .error (.validationError "Response should be a dictionary.")) ∧
    (∀ (t : List Char) (fields : List (List Char × Validation.Json)),
      t ≠ [] →
      loads (Validation.defence t) = some (Validation.Json.obj fields) →
      Utils.validate_json_response loads (some t) = .ok fields) := by
  have hempty : ∀ t : List Char, t ≠ [] → t.isEmpty = false := by
    intro t ht
    cases t with
    | nil => exact absurd rfl ht
    | cons x xs => rfl
  refine ⟨rfl, rfl, ?_, ?_, ?_, ?_, rfl, rfl, ?_, ?_, ?_⟩
  · intro t ht hl
    simp [Validation.validate_json_response, hempty t ht, hl]
  · intro t j ht hl hj
    cases j with
    | arr items => exact absurd rfl (hj items)
    | null => simp [Validation.validate_json_response, hempty t ht, hl]
    | bool b => simp [Validation.validate_json_response, hempty t ht, hl]
    | num n => simp [Validation.validate_json_response, hempty t ht, hl]
    | str s => simp [Validation.validate_json_response, hempty t ht, hl]
    | obj fields => simp [Validation.validate_json_response, hempty t ht, hl]
  · intro t items ht hl hobj
    simp [Validation.validate_json_response, hempty t ht, hl, hobj]
  · intro t items hok
    unfold Validation.validate_json_response at hok
    dsimp only at hok
    by_cases he : t.isEmpty
    · rw [if_pos he] at hok
      exact absurd hok (by simp)
    · rw [if_neg he] at hok
      cases hl : loads (Validation.defence t) with
      | none => rw [hl] at hok; exact absurd hok (by simp)
      | some j =>
          rw [hl] at hok
          cases j with
          | arr items2 =>
              dsimp only at hok
              by_cases hall : items2.all Validation.Json.isObj
              · rw [if_pos hall] at hok
                have hitems : items2 = items := by simpa using hok
                subst hitems
                exact ⟨rfl, hall⟩
              · rw [if_neg hall] at hok
                exact absurd hok (by simp)
          | null => exact absurd hok (by simp)
          | bool b => exact absurd hok (by simp)
          | num n => exact absurd hok (by simp)
          | str s => exact absurd hok (by simp)
          | obj fields => exact absurd hok (by simp)
  · intro t ht hl
    simp [Utils.validate_json_response, hempty t ht, hl]
  · intro t j ht hl hj
    cases j with
    | obj fields => exact absurd rfl (hj fields)
    | null => simp [Utils.validate_json_response, hempty t ht, hl]
    | bool b => simp [Utils.validate_json_response, hempty t ht, hl]
    | num n => simp [Utils.validate_json_response, hempty t ht, hl]
    | str s => simp [Utils.validate_json_response, hempty t ht, hl]
    | arr items => simp [Utils.validate_json_response, hempty t ht, hl]
  · intro t fields ht hl
    simp [Utils.validate_json_response, hempty t ht, hl]

/-- Witness for the amended C5 at a concrete parser and concrete inputs
covering every rejection shape of both variants, plus the element-free
acceptance of the utils.py variant. -/
theorem c5_shape_errors_amended_witness :
    (Validation.validate_json_response
      (fun s =>
        if s = "7".toList then some (Validation.Json.num 7)
        else if s = "[7]".toList then
          some (Validation.Json.arr [Validation.Json.num 7])
        else if s = "d".toList then
          some (Validation.Json.obj [("k".toList, Validation.Json.num 5)])
        else Option.none) Option.none =
      .error (.validationError "Empty or non-string response.")) ∧
    (Validation.validate_json_response
      (fun s =>
        if s = "7".toList then some (Validation.Json.num 7)
        else if s = "[7]".toList then
          some (Validation.Json.arr [Validation.Json.num 7])
        else if s = "d".toList then
          some (Validation.Json.obj [("k".toList, Validation.Json.num 5)])
        else Option.none) (some "x".toList) =
      .error (.validationError "Response is not valid JSON.")) ∧
    (Validation.validate_json_response
      (fun s =>
        if s = "7".toList then some (Validation.Json.num 7)
        else if s = "[7]".toList then
          some (Validation.Json.arr [Validation.Json.num 7])
        else if s = "d".toList then
          some (Validation.Json.obj [("k".toList, Validation.Json.num 5)])
        else Option.none) (some "7".toList) =
      .error (.validationError "Response should be a list.")) ∧
    (Validation.validate_json_response
      (fun s =>
        if s = "7".toList then some (Validation.Json.num 7)
        else if s = "[7]".toList then
          some (Validation.Json.arr [Validation.Json.num 7])
        else if s = "d".toList then
          some (Validation.Json.obj [("k".toList, Validation.Json.num 5)])
        else Option.none) (some "[7]".toList) =
      .error (.validationError
        "Each item in the response list should be a dictionary.")) ∧
    (Utils.validate_json_response
      (fun s =>
        if s = "7".toList then some (Validation.Json.num 7)
        else if s = "[7]".toList then
          some (Validation.Json.arr [Validation.Json.num 7])
        else if s = "d".toList then
          some (Validation.Json.obj [("k".toList, Validation.Json.num 5)])
        else Option.none) (some "7".toList) =
      .error (.validationError "Response should be a dictionary.")) ∧
    (Utils.validate_json_response
      (fun s =>
        if s = "7".toList then some (Validation.Json.num 7)
        else if s = "[7]".toList then
          some (Validation.Json.arr [Validation.Json.num 7])
        else if s = "d".toList then
          some (Validation.Json.obj [("k".toList, Validation.Json.num 5)])
        else Option.none) (some "d".toList) =
      .ok [("k".toList, Validation.Json.num 5)]) :=
  ⟨(c5_shape_errors_amended _).1,
    (c5_shape_errors_amended _).2.2.1 _ (by decide) (by rfl),
    (c5_shape_errors_amended _).2.2.2.1 _ (Validation.Json.num 7) (by decide)
      (by rfl) (fun items h => Validation.Json.noConfusion h),
    (c5_shape_errors_amended _).2.2.2.2.1 _ [Validation.Json.num 7]
      (by decide) (by rfl) (by rfl),
    (c5_shape_errors_amended _).2.2.2.2.2.2.2.2.2.1 _ (Validation.Json.num 7)
      (by decide) (by rfl) (fun fields h => Validation.Json.noConfusion h),
    (c5_shape_errors_amended _).2.2.2.2.2.2.2.2.2.2 _
      [("k".toList, Validation.Json.num 5)] (by decide) (by rfl)⟩

theorem pyStripL_idem (s : List Char) : pyStripL (pyStripL s) = pyStripL s := by
  rw [pyStripL_eq_rdrop, pyStripL_eq_rdrop]
  have hA : List.dropWhile isPySpace
      (List.rdropWhile isPySpace (List.dropWhile isPySpace s)) =
      List.rdropWhile isPySpace (List.dropWhile isPySpace s) := by
    cases h : List.rdropWhile isPySpace (List.dropWhile isPySpace s) with
    | nil => rfl
    | cons x xs =>
        have hpre : List.rdropWhile isPySpace (List.dropWhile isPySpace s) <+:
            List.dropWhile isPySpace s := rdropWhile_front _ _
        rw [h] at hpre
        have hhead := prefix_head hpre (rfl : (x :: xs).head? = some x)
        have hpx : isPySpace x = false := by
          have h2 := List.head?_dropWhile_not isPySpace s
          rw [hhead] at h2
          simpa using h2
        simp [List.dropWhile_cons, hpx]
  rw [hA, List.rdropWhile_idempotent]

/-- C9.  Fence-stripping round-trip: for a text that parses as a JSON list of
objects (and, like every JSON document, starts with the bracket of its
top-level array after stripping), wrapping it in a ` ```json ` fence, a plain
` ``` ` fence, or single backticks and calling `validate_json_response`
yields the same parsed result as calling it on the unwrapped text: exactly
one layer of fencing is stripped.  The hypotheses on `loads` model
`json.loads`: surrounding whitespace is ignored, and the text parses to the
given array of objects. -/
theorem c9_fence_round_trip (loads : List Char → Option Validation.Json)
    (t : List Char) (items : List Validation.Json)
    (hstrip : ∀ s, loads (pyStripL s) = loads s)
    (ht : loads t = some (Validation.Json.arr items))
    (hobj : items.all Validation.Json.isObj = true)
    (hhead : (pyStripL t).head? = some '[') :
    Validation.validate_json_response loads
        (some ("```json".toList ++ t ++ "```".toList)) = .ok items ∧
    Validation.validate_json_response loads
        (some ("```".toList ++ t ++ "```".toList)) = .ok items ∧
    Validation.validate_json_response loads
        (some ("`".toList ++ t ++ "`".toList)) = .ok items ∧
    Validation.validate_json_response loads (some t) = .ok items := by
  obtain ⟨c0, hc0, hcase⟩ := head_of_pyStripL hhead
  have htne : t ≠ [] := by
    intro h
    rw [h] at hc0
    simp at hc0
  have hc0tick : c0 ≠ bquoteChar := by
    intro h
    subst h
    rcases hcase with hs | he
    · exact absurd hs (by decide)
    · exact absurd he (by decide)
  have hc0j : c0 ≠ 'j' := by
    intro h
    subst h
    rcases hcase with hs | he
    · exact absurd hs (by decide)
    · exact absurd he (by decide)
  have hfinal : ∀ w : List Char, w.isEmpty = false →
      loads (Validation.defence w) = some (Validation.Json.arr items) →
      Validation.validate_json_response loads (some w) = .ok items := by
    intro w hempty hl
    simp [Validation.validate_json_response, hempty, hl, hobj]
  have hheadtb : ∀ b : List Char, (t ++ b).head? = some c0 := by
    intro b
    cases t with
    | nil => exact absurd rfl htne
    | cons x xs => simpa using hc0
  have hjsonHead : ("```json".toList).head? = some bquoteChar := by decide
  have hfenceHead : ("```".toList).head? = some bquoteChar := by decide
  have htickHead : ("`".toList).head? = some bquoteChar := by decide
  -- the unwrapped text takes no branch of the fence stripping
  have hnp1 : ("```json".toList.isPrefixOf t) = false :=
    not_prefix_of_head_ne hjsonHead hc0 hc0tick
  have hnp2 : ("```".toList.isPrefixOf t) = false :=
    not_prefix_of_head_ne hfenceHead hc0 hc0tick
  have hnp3 : ("`".toList.isPrefixOf t) = false :=
    not_prefix_of_head_ne htickHead hc0 hc0tick
  have hdef_t : Validation.defence t = t := by
    unfold Validation.defence
    rw [hnp1, hnp2, hnp3]
    simp
  have hok_t : Validation.validate_json_response loads (some t) = .ok items := by
    refine hfinal t ?_ (by rw [hdef_t]; exact ht)
    cases t with
    | nil => exact absurd rfl htne
    | cons x xs => rfl
  -- the ```json fence takes the first branch
  have hw1pre : ("```json".toList.isPrefixOf
      ("```json".toList ++ t ++ "```".toList)) = true :=
    (isPrefixOf_iff _ _).mpr
      ⟨t ++ "```".toList, (List.append_assoc _ _ _).symm⟩
  have hw1suf : ("```".toList.isSuffixOf
      ("```json".toList ++ t ++ "```".toList)) = true :=
    List.isSuffixOf_iff_suffix.mpr ⟨"```json".toList ++ t, rfl⟩
  have hslice1 : (("```json".toList ++ t ++ "```".toList).drop 7).take
      (("```json".toList ++ t ++ "```".toList).length - 10) = t := by
    have hdrop : ("```json".toList ++ t ++ "```".toList).drop 7 =
        t ++ "```".toList := by
      rw [List.append_assoc]
      rfl
    have hlen : ("```json".toList ++ t ++ "```".toList).length - 10 =
        t.length := by
      rw [List.length_append, List.length_append,
        show ("```json".toList).length = 7 from rfl,
        show ("```".toList).length = 3 from rfl]
      omega
    rw [hdrop, hlen]
    exact List.take_left t _
  have hdef1 : Validation.defence ("```json".toList ++ t ++ "```".toList) =
      pyStripL t := by
    unfold Validation.defence
    rw [hw1pre, hw1suf, hslice1]
    simp
  have hok1 : Validation.validate_json_response loads
      (some ("```json".toList ++ t ++ "```".toList)) = .ok items := by
    refine hfinal _ rfl ?_
    rw [hdef1, hstrip t]
    exact ht
  -- the plain ``` fence misses the first branch and takes the second
  have hnp21 : ("```json".toList.isPrefixOf
      ("```".toList ++ t ++ "```".toList)) = false := by
    rw [Bool.eq_false_iff]
    intro hcontra
    rw [isPrefixOf_iff, List.append_assoc,
      show ("```json".toList) = "```".toList ++ "json".toList from rfl,
      append_prefix_cancel] at hcontra
    have hj := prefix_head hcontra
      (show ("json".toList).head? = some 'j' from rfl)
    rw [hheadtb _] at hj
    exact hc0j (by simpa using hj)
  have hw2pre : ("```".toList.isPrefixOf
      ("```".toList ++ t ++ "```".toList)) = true :=
    (isPrefixOf_iff _ _).mpr
      ⟨t ++ "```".toList, (List.append_assoc _ _ _).symm⟩
  have hw2suf : ("```".toList.isSuffixOf
      ("```".toList ++ t ++ "```".toList)) = true :=
    List.isSuffixOf_iff_suffix.mpr ⟨"```".toList ++ t, rfl⟩
  have hslice2 : (("```".toList ++ t ++ "```".toList).drop 3).take
      (("```".toList ++ t ++ "```".toList).length - 6) = t := by
    have hdrop : ("```".toList ++ t ++ "```".toList).drop 3 =
        t ++ "```".toList := by
      rw [List.append_assoc]
      rfl
    have hlen : ("```".toList ++ t ++ "```".toList).length - 6 = t.length := by
      rw [List.length_append, List.length_append,
        show ("```".toList).length = 3 from rfl]
      omega
    rw [hdrop, hlen]
    exact List.take_left t _
  have hdef2 : Validation.defence ("```".toList ++ t ++ "```".toList) =
      pyStripL t := by
    unfold Validation.defence
    rw [hnp21, hw2pre, hw2suf, hslice2]
    simp
  have hok2 : Validation.validate_json_response loads
      (some ("```".toList ++ t ++ "```".toList)) = .ok items := by
    refine hfinal _ rfl ?_
    rw [hdef2, hstrip t]
    exact ht
  -- single backticks miss the first two branches and take the third
  have hnp31 : ("```json".toList.isPrefixOf
      ("`".toList ++ t ++ "`".toList)) = false := by
    rw [Bool.eq_false_iff]
    intro hcontra
    rw [isPrefixOf_iff, List.append_assoc,
      show ("```json".toList) = "`".toList ++ "``json".toList from rfl,
      append_prefix_cancel] at hcontra
    have hj := prefix_head hcontra
      (show ("``json".toList).head? = some bquoteChar from by decide)
    rw [hheadtb _] at hj
    exact hc0tick (by simpa using hj)
  have hnp32 : ("```".toList.isPrefixOf
      ("`".toList ++ t ++ "`".toList)) = false := by
    rw [Bool.eq_false_iff]
    intro hcontra
    rw [isPrefixOf_iff, List.append_assoc,
      show ("```".toList) = "`".toList ++ "``".toList from rfl,
      append_prefix_cancel] at hcontra
    have hj := prefix_head hcontra
      (show ("``".toList).head? = some bquoteChar from by decide)
    rw [hheadtb _] at hj
    exact hc0tick (by simpa using hj)
  have hw3pre : ("`".toList.isPrefixOf ("`".toList ++ t ++ "`".toList)) =
      true :=
    (isPrefixOf_iff _ _).mpr
      ⟨t ++ "`".toList, (List.append_assoc _ _ _).symm⟩
  have hw3suf : ("`".toList.isSuffixOf ("`".toList ++ t ++ "`".toList)) =
      true :=
    List.isSuffixOf_iff_suffix.mpr ⟨"`".toList ++ t, rfl⟩
  have hslice3 : (("`".toList ++ t ++ "`".toList).drop 1).take
      (("`".toList ++ t ++ "`".toList).length - 2) = t := by
    have hdrop : ("`".toList ++ t ++ "`".toList).drop 1 = t ++ "`".toList := by
      rw [List.append_assoc]
      rfl
    have hlen : ("`".toList ++ t ++ "`".toList).length - 2 = t.length := by
      rw [List.length_append, List.length_append,
        show ("`".toList).length = 1 from rfl]
      omega
    rw [hdrop, hlen]
    exact List.take_left t _
  have hdef3 : Validation.defence ("`".toList ++ t ++ "`".toList) =
      pyStripL t := by
    unfold Validation.defence
    rw [hnp31, hnp32, hw3pre, hw3suf, hslice3]
    simp
  have hok3 : Validation.validate_json_response loads
      (some ("`".toList ++ t ++ "`".toList)) = .ok items := by
    refine hfinal _ rfl ?_
    rw [hdef3, hstrip t]
    exact ht
  exact ⟨hok1, hok2, hok3, hok_t⟩

/-- Witness for C9 at the concrete document `[]` and a concrete
whitespace-insensitive parser. -/
theorem c9_fence_round_trip_witness :
    Validation.validate_json_response
        (fun s => if pyStripL s = "[]".toList then
          some (Validation.Json.arr []) else Option.none)
        (some ("```json".toList ++ "[]".toList ++ "```".toList)) = .ok [] ∧
    Validation.validate_json_response
        (fun s => if pyStripL s = "[]".toList then
          some (Validation.Json.arr []) else Option.none)
        (some ("```".toList ++ "[]".toList ++ "```".toList)) = .ok [] ∧
    Validation.validate_json_response
        (fun s => if pyStripL s = "[]".toList then
          some (Validation.Json.arr []) else Option.none)
        (some ("`".toList ++ "[]".toList ++ "`".toList)) = .ok [] ∧
    Validation.validate_json_response
        (fun s => if pyStripL s = "[]".toList then
          some (Validation.Json.arr []) else Option.none)
        (some "[]".toList) = .ok [] := by
  have h := c9_fence_round_trip
    (fun s => if pyStripL s = "[]".toList then
      some (Validation.Json.arr []) else Option.none)
    "[]".toList []
    (by
      intro s
      show (if pyStripL (pyStripL s) = "[]".toList then
          some (Validation.Json.arr []) else Option.none) =
        (if pyStripL s = "[]".toList then
          some (Validation.Json.arr []) else Option.none)
      rw [pyStripL_idem])
    (by rfl) (by rfl) (by rfl)
  exact ⟨h.1, h.2.1, h.2.2.1, h.2.2.2⟩

/-!
## Metadata validation and the DOI rule (claim C8)

`validate_metadata_response` and `sanitize_text` from
src/bin/extract_metadata.py (which imports `handle_error` from
src/bin/utils.py), and the DOI pattern of `MetadataResponse.is_valid_doi`
from src/bin/common/models.py.
-/

/-- Python `text.replace(c, repl)` for a single-character pattern. -/
def pyReplaceChar (s : List Char) (c : Char) (repl : List Char) : List Char :=
  s.flatMap (fun x => if x = c then repl else [x])

namespace ExtractMetadata

/-- One iteration of the `sanitize_text` loop:
`text = text.strip().replace(char, "\\" + char)`. -/
def sanitizeStep (s : List Char) (c : Char) : List Char :=
  pyReplaceChar (pyStripL s) c ['\\', c]

/-- Embedding of `sanitize_text(text)` from src/bin/extract_metadata.py: escape backslash,
double quote, single quote and dollar, stripping on each iteration. -/
def sanitize_text (s : String) : String :=
  ⟨[('\\' : Char), dquoteChar, squoteChar, '$'].foldl sanitizeStep s.data⟩

end ExtractMetadata

/-- Python regex `\w` on ASCII input: letters, digits and underscore. -/
def isWordChar (c : Char) : Bool :=
  c.isAlphanum || c == '_'

/-- The DOI-suffix character class `[-._;()/:\w\[\]]` of the pattern in
src/bin/extract_metadata.py. -/
def isDoiSuffixChar (c : Char) : Bool :=
  isWordChar c || c == '-' || c == '.' || c == '_' || c == ';' || c == '(' ||
    c == ')' || c == '/' || c == ':' || c == '[' || c == ']'

/-- Python regex `$`: matches at the end of the string or just before one
trailing newline. -/
def atDollarEnd (s : List Char) : Bool :=
  s.isEmpty || s == ['\n']

/-- The part of `re.match` for the anchored pattern 10 dot, digits, slash,
class suffix, dollar, after the literal `10.`:
at least four digits, a slash, then at least one character of the class `C`,
then `$`.  Greedy matching is equivalent to full regex semantics here because
a digit can never satisfy the following `/`, and a class character can never
satisfy `$`. -/
def matchDoiTail (charset : Char → Bool) (s : List Char) : Bool :=
  let ds := s.takeWhile Char.isDigit
  decide (4 ≤ ds.length) &&
    (match s.drop ds.length with
      | '/' :: tail =>
          let run := tail.takeWhile charset
          !run.isEmpty && atDollarEnd (tail.drop run.length)
      | _ => false)

/-- Python `re.match` of the anchored DOI pattern with suffix class `charset`. -/
def pyMatchDoi (charset : Char → Bool) (s : List Char) : Bool :=
  match s with
  | '1' :: '0' :: '.' :: rest => matchDoiTail charset rest
  | _ => false

namespace Models

/-- The DOI pattern `^10\.\d\x7b4,\x7d/[^\s]+$` of `MetadataResponse.is_valid_doi`
in src/bin/common/models.py; the validator raises for every non-matching
string, the sentinel NULL included. -/
def is_valid_doi (doi : String) : Bool :=
  pyMatchDoi (fun c => !isPySpace c) doi.data

end Models

/-- Modelled from the spec (claim C8): the doi is "either the literal
sentinel NULL ... or a string matching `^10\.\d\x7b4,\x7d/\S+$`".  This is the
rule the claim states, written down to compare against the code. -/
def specDoiAccepts (doi : String) : Bool :=
  doi == "NULL" || pyMatchDoi (fun c => !isPySpace c) doi.data

namespace ExtractMetadata

/-- The DOI pattern of `validate_metadata_response` in
src/bin/extract_metadata.py: `^10\.\d\x7b4,\x7d/[-._;()/:\w\[\]]+$`. -/
def doiRegexB (s : String) : Bool :=
  pyMatchDoi isDoiSuffixChar s.data

/-- The loop of `validate_metadata_response(metadata, allow_errors)` from
src/bin/extract_metadata.py (lines 67-131).  Field checks run in source
order, each `continue`-ing to the next record through `handle_error` (the
utils.py variant) on failure; title and summary are sanitized/stripped in
place before later checks, matching the in-place dict mutation; a present,
non-NULL doi failing the pattern evaluates `d["metadata_error"]`, which
raises KeyError when that key is absent; `re.match` on a non-string doi and
`.strip()` on a non-string title or summary raise. -/
def vmrLoop (allowErrors : Bool)
    (articlesPass articlesFail : List (String × PyVal)) :
    List (String × PyVal) →
      Except PyError (List (String × PyVal) × List (String × PyVal))
  | [] => .ok (articlesPass, articlesFail)
  | (k, d) :: rest =>
      match d with
      | PyVal.dict fields =>
          if fields.isEmpty then do
            let v ← Utils.handle_error d "Empty or non-dict response."
              "metadata" allowErrors
            vmrLoop allowErrors articlesPass (pyInsert articlesFail k v) rest
          else if !(hasKeyB fields "title" && hasKeyB fields "summary" &&
              hasKeyB fields "doi") then do
            let v ← Utils.handle_error d "Missing keys (title, summary, doi)."
              "metadata" allowErrors
            vmrLoop allowErrors articlesPass (pyInsert articlesFail k v) rest
          else if !(pyTruthy ((pyGet? fields "title").getD PyVal.none)) then do
            let v ← Utils.handle_error d "Title cannot be empty." "metadata"
              allowErrors
            vmrLoop allowErrors articlesPass (pyInsert articlesFail k v) rest
          else
            match (pyGet? fields "title").getD PyVal.none with
            | PyVal.str ts =>
                let fields1 := pyInsert fields "title"
                  (PyVal.str (sanitize_text (pyStripS ts)))
                if !(pyTruthy ((pyGet? fields1 "summary").getD PyVal.none))
                then do
                  let v ← Utils.handle_error (PyVal.dict fields1)
                    "Summary cannot be empty." "metadata" allowErrors
                  vmrLoop allowErrors articlesPass (pyInsert articlesFail k v)
                    rest
                else
                  match (pyGet? fields1 "summary").getD PyVal.none with
                  | PyVal.str ss =>
                      let fields2 := pyInsert fields1 "summary"
                        (PyVal.str (pyStripS ss))
                      if !(pyTruthy ((pyGet? fields2 "doi").getD PyVal.none))
                      then do
                        let v ← Utils.handle_error (PyVal.dict fields2)
                          "DOI cannot be empty." "metadata" allowErrors
                        vmrLoop allowErrors articlesPass
                          (pyInsert articlesFail k v) rest
                      else
                        match (pyGet? fields2 "doi").getD PyVal.none with
                        | PyVal.str ds =>
                            if ds == "NULL" then
                              vmrLoop allowErrors
                                (pyInsert articlesPass k (PyVal.dict fields2))
                                articlesFail rest
                            else if doiRegexB ds then
                              vmrLoop allowErrors
                                (pyInsert articlesPass k (PyVal.dict
                                  (pyInsert fields2 "doi"
                                    (PyVal.str (pyStripS ds)))))
                                articlesFail rest
                            else
                              match pyGet? fields2 "metadata_error" with
                              | Option.none => .error .keyError
                              | some m => do
                                  let v ← Utils.handle_error
                                    (PyVal.dict fields2) (pyStr m) "metadata"
                                    allowErrors
                                  vmrLoop allowErrors articlesPass
                                    (pyInsert articlesFail k v) rest
                        | _ => .error .typeError
                  | _ => .error .attributeError
            | _ => .error .attributeError
      | _ => do
          let v ← Utils.handle_error d "Empty or non-dict response." "metadata"
            allowErrors
          vmrLoop allowErrors articlesPass (pyInsert articlesFail k v) rest

/-- Embedding of `validate_metadata_response(metadata, allow_errors)` from
src/bin/extract_metadata.py. -/
def validate_metadata_response (metadata : List (String × PyVal))
    (allowErrors : Bool) :
    Except PyError (List (String × PyVal) × List (String × PyVal)) :=
  vmrLoop allowErrors [] [] metadata

end ExtractMetadata

/-- C8 fails as stated against both cited sources.  The suffix `a+b` matches
the claimed pattern `\S+` (and the `[^\s]+` pattern of
`MetadataResponse.is_valid_doi` in models.py), but `validate_metadata_response`
uses the narrower class `[-._;()/:\w\[\]]+`, rejects it, and then crashes with
KeyError evaluating `d["metadata_error"]` instead of producing a validation
error for that object; conversely models.py rejects the `NULL` sentinel the
claim passes through. -/
theorem c8_doi_spec_rule_counterexample :
    specDoiAccepts "10.1234/a+b" = true ∧
    Models.is_valid_doi "10.1234/a+b" = true ∧
    Models.is_valid_doi "NULL" = false ∧
    ExtractMetadata.doiRegexB "10.1234/a+b" = false ∧
    ExtractMetadata.validate_metadata_response
      [("https://x", PyVal.dict [("title", PyVal.str "T"),
        ("summary", PyVal.str "S"), ("doi", PyVal.str "10.1234/a+b")])]
      true = .error .keyError := by
  refine ⟨by decide, by decide, by decide, by decide, ?_⟩
  rfl

/-- C8 (amended).  For a metadata object with non-empty string title and
summary and a string doi, `validate_metadata_response` accepts the object if
and only if the doi is the literal sentinel NULL (passed through unchanged) or
a non-empty string matching `^10\.\d\x7b4,\x7d/[-._;()/:\w\[\]]+$`; an empty
doi is annotated as a per-object validation error (tolerant mode), while any
other non-matching value raises KeyError from the `d["metadata_error"]`
lookup rather than producing a validation error. -/
theorem c8_doi_rule_amended (k t s ds : String) (allow : Bool)
    (htt : (t != "") = true) (hss : (s != "") = true) :
    ((ds = "NULL" ∨ ((ds != "") = true ∧ ExtractMetadata.doiRegexB ds = true)) →
      ∃ d2, ExtractMetadata.validate_metadata_response
        [(k, PyVal.dict [("title", PyVal.str t), ("summary", PyVal.str s),
          ("doi", PyVal.str ds)])] allow = .ok ([(k, d2)], [])) ∧
    (ds = "" →
      ∃ fields2, ExtractMetadata.validate_metadata_response
        [(k, PyVal.dict [("title", PyVal.str t), ("summary", PyVal.str s),
          ("doi", PyVal.str ds)])] true =
        .ok ([], [(k, PyVal.dict fields2)]) ∧
        pyGet? fields2 "metadata_error" =
          some (PyVal.str "DOI cannot be empty.")) ∧
    ((ds != "") = true → ds ≠ "NULL" → ExtractMetadata.doiRegexB ds = false →
      ExtractMetadata.validate_metadata_response
        [(k, PyVal.dict [("title", PyVal.str t), ("summary", PyVal.str s),
          ("doi", PyVal.str ds)])] allow = .error .keyError) := by
  refine ⟨?_, ?_, ?_⟩
  · rintro (hnull | ⟨hne, hreg⟩)
    · subst hnull
      exact ⟨PyVal.dict [("title",
          PyVal.str (ExtractMetadata.sanitize_text (pyStripS t))),
          ("summary", PyVal.str (pyStripS s)), ("doi", PyVal.str "NULL")],
        by simp [ExtractMetadata.validate_metadata_response,
          ExtractMetadata.vmrLoop, hasKeyB, pyGet?, pyInsert, pyTruthy,
          List.find?, htt, hss]⟩
    · have hdsnull : (ds == "NULL") = false := by
        cases h : (ds == "NULL") with
        | false => rfl
        | true =>
            have h2 : ds = "NULL" := by simpa using h
            rw [h2] at hreg
            exact absurd hreg (by decide)
      exact ⟨PyVal.dict [("title",
          PyVal.str (ExtractMetadata.sanitize_text (pyStripS t))),
          ("summary", PyVal.str (pyStripS s)),
          ("doi", PyVal.str (pyStripS ds))],
        by simp [ExtractMetadata.validate_metadata_response,
          ExtractMetadata.vmrLoop, hasKeyB, pyGet?, pyInsert, pyTruthy,
          List.find?, htt, hss, hne, hdsnull, hreg]⟩
  · intro hds
    subst hds
    exact ⟨[("title", PyVal.str (ExtractMetadata.sanitize_text (pyStripS t))),
        ("summary", PyVal.str (pyStripS s)), ("doi", PyVal.str ""),
        ("metadata_error", PyVal.str "DOI cannot be empty.")],
      by simp [ExtractMetadata.validate_metadata_response,
        ExtractMetadata.vmrLoop, hasKeyB, pyGet?, pyInsert, pyTruthy,
        List.find?, htt, hss, Utils.handle_error, Bind.bind, Except.bind],
      by rfl⟩
  · intro hne hnotnull hregf
    have hdsnull : (ds == "NULL") = false := by simpa using hnotnull
    simp [ExtractMetadata.validate_metadata_response, ExtractMetadata.vmrLoop,
      hasKeyB, pyGet?, pyInsert, pyTruthy, List.find?, htt, hss, hne, hdsnull,
      hregf]

/-- Witness for the amended C8: a valid DOI is accepted, an invalid one
raises KeyError. -/
theorem c8_doi_rule_amended_witness :
    (∃ d2, ExtractMetadata.validate_metadata_response
      [("u", PyVal.dict [("title", PyVal.str "T"), ("summary", PyVal.str "S"),
        ("doi", PyVal.str "10.1234/abc")])] true = .ok ([("u", d2)], [])) ∧
    ExtractMetadata.validate_metadata_response
      [("u", PyVal.dict [("title", PyVal.str "T"), ("summary", PyVal.str "S"),
        ("doi", PyVal.str "not-a-doi")])] true = .error .keyError :=
  ⟨(c8_doi_rule_amended "u" "T" "S" "10.1234/abc" true (by decide)
      (by decide)).1 (Or.inr ⟨by decide, by decide⟩),
    (c8_doi_rule_amended "u" "T" "S" "not-a-doi" true (by decide)
      (by decide)).2.2 (by decide) (by decide) (by decide)⟩

/-!
## Store-passing embedding of validate_decision_response (claim C10)

Claim C10 is about reference identity and in-place mutation, so this second
embedding of the same utils.py functions makes the object store explicit: the
`decisions` dict maps keys to references into a heap of Python objects,
`d[...] = ...` mutates the heap at the referenced cell, and the returned
pass/fail dicts hold references, exactly as CPython passes the dict objects
around. -/

namespace Utils

/-- The object store: every reference denotes a Python object. -/
def Heap : Type := Nat → PyVal

/-- In-place mutation of the object at one reference. -/
def hUpdate (h : Heap) (r : Nat) (v : PyVal) : Heap :=
  fun r2 => if r2 = r then v else h r2

/-- Embedding of `handle_error` from src/bin/utils.py over the store: tolerant mode writes
the `stage + "_error"` annotation into the referenced object in place and
returns the same reference; a non-dict object raises TypeError; strict mode
raises ValidationError. -/
def handle_errorH (h : Heap) (r : Nat) (errorMsg stage : String)
    (allowErrors : Bool) : Except PyError (Heap × Nat) :=
  if allowErrors then
    match h r with
    | PyVal.dict fields =>
        .ok (hUpdate h r (PyVal.dict (pyInsert fields (stage ++ "_error")
          (PyVal.str errorMsg))), r)
    | _ => .error .typeError
  else
    .error (.validationError
      ("Validation failed for " ++ stage ++ " with value " ++ pyStr (h r) ++
        ": " ++ errorMsg))

/-- The loop of `validate_decision_response` from src/bin/utils.py over the
store: the same control flow as `vdrLoop`, with the normalized decision
written back into the original dict (`d["decision"] = decision`) and the same
reference stored in the pass map. -/
def vdrLoopH (allowErrors : Bool) (stage : String)
    (mappings : List (String × String)) (h : Heap)
    (articlesPass articlesFail : List (String × Nat)) :
    List (String × Nat) →
      Except PyError (Heap × List (String × Nat) × List (String × Nat))
  | [] => .ok (h, articlesPass, articlesFail)
  | (k, r) :: rest =>
      match h r with
      | PyVal.dict fields =>
          if fields.isEmpty then do
            let (h2, r2) ← handle_errorH h r "Empty or non-dict response."
              stage allowErrors
            vdrLoopH allowErrors stage mappings h2 articlesPass
              (pyInsert articlesFail k r2) rest
          else if !(hasKeyB fields "decision" && hasKeyB fields "reasoning")
          then do
            let (h2, r2) ← handle_errorH h r
              "Missing keys (decision and/or reasoning)." stage allowErrors
            vdrLoopH allowErrors stage mappings h2 articlesPass
              (pyInsert articlesFail k r2) rest
          else
            let decision := pyStr ((pyGet? fields "decision").getD PyVal.none)
            if decision == "" then do
              let (h2, r2) ← handle_errorH h r "Empty or non-string response."
                stage allowErrors
              vdrLoopH allowErrors stage mappings h2 articlesPass
                (pyInsert articlesFail k r2) rest
            else
              match pyGet? mappings (pyLower (pyStripS decision)) with
              | Option.none => do
                  let (h2, r2) ← handle_errorH h r
                    ("Invalid priority value. Expected " ++
                      renderSet (mappings.map (fun p => p.2)) ++ ".")
                    stage allowErrors
                  vdrLoopH allowErrors stage mappings h2 articlesPass
                    (pyInsert articlesFail k r2) rest
              | some canon =>
                  vdrLoopH allowErrors stage mappings
                    (hUpdate h r (PyVal.dict (pyInsert fields "decision"
                      (PyVal.str canon))))
                    (pyInsert articlesPass k r) articlesFail rest
      | _ => do
          let (h2, r2) ← handle_errorH h r "Empty or non-dict response." stage
            allowErrors
          vdrLoopH allowErrors stage mappings h2 articlesPass
            (pyInsert articlesFail k r2) rest

/-- Embedding of `validate_decision_response` from src/bin/utils.py over the store. -/
def validate_decision_responseH (h : Heap) (decisions : List (String × Nat))
    (allowErrors : Bool) (stage : String)
    (mappings : List (String × String)) :
    Except PyError (Heap × List (String × Nat) × List (String × Nat)) :=
  vdrLoopH allowErrors stage mappings h [] [] decisions

end Utils

theorem hUpdate_self (h : Utils.Heap) (r : Nat) (v : PyVal) :
    Utils.hUpdate h r v r = v := by
  simp [Utils.hUpdate]

theorem hUpdate_ne (h : Utils.Heap) (r : Nat) (v : PyVal) {r2 : Nat}
    (hne : r2 ≠ r) : Utils.hUpdate h r v r2 = h r2 := by
  simp [Utils.hUpdate, hne]

/-- The per-call contract of the store-passing decision validator, relative
to accumulators: every pass entry is either inherited or an input reference
whose object had only its `decision` field overwritten with the canonical
value; every fail entry is either inherited or an input reference whose
object had only a `stage + "_error"` annotation added; no other store cell
changes. -/
def VdrSpec (h h2 : Utils.Heap) (stage : String)
    (mappings : List (String × String))
    (decisions accP accF passRefs failRefs : List (String × Nat)) : Prop :=
  (∀ kr ∈ passRefs, kr ∈ accP ∨ (kr ∈ decisions ∧ ∃ fields canon,
      h kr.2 = PyVal.dict fields ∧
      h2 kr.2 = PyVal.dict (pyInsert fields "decision" (PyVal.str canon)) ∧
      pyGet? mappings (pyLower (pyStripS (pyStr
        ((pyGet? fields "decision").getD PyVal.none)))) = some canon)) ∧
  (∀ kr ∈ failRefs, kr ∈ accF ∨ (kr ∈ decisions ∧ ∃ fields msg,
      h kr.2 = PyVal.dict fields ∧
      h2 kr.2 = PyVal.dict (pyInsert fields (stage ++ "_error")
        (PyVal.str msg)))) ∧
  (∀ r, r ∉ decisions.map Prod.snd → h2 r = h r)

theorem VdrSpec_cons_fail {stage : String} {mappings : List (String × String)}
    {h h2 : Utils.Heap} {k : String} {r : Nat}
    {fields : List (String × PyVal)} {msg : String}
    {rest accP accF passRefs failRefs : List (String × Nat)}
    (hhr : h r = PyVal.dict fields) (hrne : r ∉ rest.map Prod.snd)
    (hspec : VdrSpec
      (Utils.hUpdate h r (PyVal.dict (pyInsert fields (stage ++ "_error")
        (PyVal.str msg)))) h2 stage mappings rest accP (pyInsert accF k r)
      passRefs failRefs) :
    VdrSpec h h2 stage mappings ((k, r) :: rest) accP accF passRefs
      failRefs := by
  obtain ⟨hp, hf, hframe⟩ := hspec
  have hne_of_mem : ∀ kr : String × Nat, kr ∈ rest → kr.2 ≠ r := by
    intro kr hmem hcontra
    exact hrne (hcontra ▸ List.mem_map_of_mem _ hmem)
  refine ⟨?_, ?_, ?_⟩
  · intro kr hkr
    rcases hp kr hkr with hacc | ⟨hmem, fields2, canon, hf1, hf2, hf3⟩
    · exact Or.inl hacc
    · refine Or.inr ⟨List.mem_cons_of_mem _ hmem, fields2, canon, ?_, hf2, hf3⟩
      rw [hUpdate_ne _ _ _ (hne_of_mem kr hmem)] at hf1
      exact hf1
  · intro kr hkr
    rcases hf kr hkr with hacc | ⟨hmem, fields2, msg2, hf1, hf2⟩
    · rcases mem_pyInsert hacc with hkr2 | hacc2
      · refine Or.inr ⟨by rw [hkr2]; exact List.mem_cons_self _ _, fields, msg,
          ?_, ?_⟩
        · rw [hkr2]
          exact hhr
        · rw [hkr2]
          have hfr := hframe r hrne
          rw [hfr, hUpdate_self]
      · exact Or.inl hacc2
    · refine Or.inr ⟨List.mem_cons_of_mem _ hmem, fields2, msg2, ?_, hf2⟩
      rw [hUpdate_ne _ _ _ (hne_of_mem kr hmem)] at hf1
      exact hf1
  · intro r2 hr2
    have hr2c : ¬(r2 = r ∨ r2 ∈ rest.map Prod.snd) := by
      intro hmem
      apply hr2
      simpa using hmem
    rw [hframe r2 (fun hmem => hr2c (Or.inr hmem)),
      hUpdate_ne _ _ _ (fun hc => hr2c (Or.inl hc))]

theorem VdrSpec_cons_pass {stage : String} {mappings : List (String × String)}
    {h h2 : Utils.Heap} {k : String} {r : Nat}
    {fields : List (String × PyVal)} {canon : String}
    {rest accP accF passRefs failRefs : List (String × Nat)}
    (hhr : h r = PyVal.dict fields) (hrne : r ∉ rest.map Prod.snd)
    (hm : pyGet? mappings (pyLower (pyStripS (pyStr
      ((pyGet? fields "decision").getD PyVal.none)))) = some canon)
    (hspec : VdrSpec
      (Utils.hUpdate h r (PyVal.dict (pyInsert fields "decision"
        (PyVal.str canon)))) h2 stage mappings rest (pyInsert accP k r) accF
      passRefs failRefs) :
    VdrSpec h h2 stage mappings ((k, r) :: rest) accP accF passRefs
      failRefs := by
  obtain ⟨hp, hf, hframe⟩ := hspec
  have hne_of_mem : ∀ kr : String × Nat, kr ∈ rest → kr.2 ≠ r := by
    intro kr hmem hcontra
    exact hrne (hcontra ▸ List.mem_map_of_mem _ hmem)
  refine ⟨?_, ?_, ?_⟩
  · intro kr hkr
    rcases hp kr hkr with hacc | ⟨hmem, fields2, canon2, hf1, hf2, hf3⟩
    · rcases mem_pyInsert hacc with hkr2 | hacc2
      · refine Or.inr ⟨by rw [hkr2]; exact List.mem_cons_self _ _, fields,
          canon, ?_, ?_, hm⟩
        · rw [hkr2]
          exact hhr
        · rw [hkr2]
          have hfr := hframe r hrne
          rw [hfr, hUpdate_self]
      · exact Or.inl hacc2
    · refine Or.inr ⟨List.mem_cons_of_mem _ hmem, fields2, canon2, ?_, hf2,
        hf3⟩
      rw [hUpdate_ne _ _ _ (hne_of_mem kr hmem)] at hf1
      exact hf1
  · intro kr hkr
    rcases hf kr hkr with hacc | ⟨hmem, fields2, msg2, hf1, hf2⟩
    · exact Or.inl hacc
    · refine Or.inr ⟨List.mem_cons_of_mem _ hmem, fields2, msg2, ?_, hf2⟩
      rw [hUpdate_ne _ _ _ (hne_of_mem kr hmem)] at hf1
      exact hf1
  · intro r2 hr2
    have hr2c : ¬(r2 = r ∨ r2 ∈ rest.map Prod.snd) := by
      intro hmem
      apply hr2
      simpa using hmem
    rw [hframe r2 (fun hmem => hr2c (Or.inr hmem)),
      hUpdate_ne _ _ _ (fun hc => hr2c (Or.inl hc))]

theorem vdrLoopH_spec (decisions : List (String × Nat)) :
    ∀ (stage : String) (mappings : List (String × String)) (h : Utils.Heap)
      (accP accF : List (String × Nat)) (h2 : Utils.Heap)
      (passRefs failRefs : List (String × Nat)),
      (decisions.map Prod.snd).Nodup →
      Utils.vdrLoopH true stage mappings h accP accF decisions =
        .ok (h2, passRefs, failRefs) →
      VdrSpec h h2 stage mappings decisions accP accF passRefs failRefs := by
  induction decisions with
  | nil =>
      intro stage mappings h accP accF h2 passRefs failRefs _ hok
      have hok2 :
          (Except.ok (h, accP, accF) :
            Except PyError
              (Utils.Heap × List (String × Nat) × List (String × Nat))) =
          .ok (h2, passRefs, failRefs) := hok
      injection hok2 with hok3
      injection hok3 with hh hok4
      injection hok4 with hpp hff
      subst hh
      subst hpp
      subst hff
      exact ⟨fun kr hkr => Or.inl hkr, fun kr hkr => Or.inl hkr,
        fun r _ => rfl⟩
  | cons kd rest ih =>
      intro stage mappings h accP accF h2 passRefs failRefs hnd hok
      obtain ⟨k, r⟩ := kd
      have hrne : r ∉ rest.map Prod.snd := by
        have := hnd
        simp only [List.map_cons, List.nodup_cons] at this
        exact this.1
      have hndr : (rest.map Prod.snd).Nodup := by
        have := hnd
        simp only [List.map_cons, List.nodup_cons] at this
        exact this.2
      unfold Utils.vdrLoopH at hok
      cases hhr : h r with
      | dict fields =>
          rw [hhr] at hok
          dsimp only at hok
          by_cases h1 : fields.isEmpty
          · rw [if_pos h1] at hok
            simp only [Utils.handle_errorH, if_pos rfl, hhr, Bind.bind,
              Except.bind] at hok
            exact VdrSpec_cons_fail hhr hrne
              (ih stage mappings _ accP (pyInsert accF k r) h2 passRefs
                failRefs hndr hok)
          · rw [if_neg h1] at hok
            by_cases h2a : hasKeyB fields "decision" && hasKeyB fields
              "reasoning"
            · rw [if_neg (by simp [h2a])] at hok
              by_cases h3 :
                  pyStr ((pyGet? fields "decision").getD PyVal.none) == ""
              · rw [if_pos h3] at hok
                simp only [Utils.handle_errorH, if_pos rfl, hhr, Bind.bind,
                  Except.bind] at hok
                exact VdrSpec_cons_fail hhr hrne
                  (ih stage mappings _ accP (pyInsert accF k r) h2 passRefs
                    failRefs hndr hok)
              · rw [if_neg (by simpa using h3)] at hok
                cases hm : pyGet? mappings (pyLower (pyStripS (pyStr
                    ((pyGet? fields "decision").getD PyVal.none)))) with
                | none =>
                    rw [hm] at hok
                    dsimp only at hok
                    simp only [Utils.handle_errorH, if_pos rfl, hhr,
                      Bind.bind, Except.bind] at hok
                    exact VdrSpec_cons_fail hhr hrne
                      (ih stage mappings _ accP (pyInsert accF k r) h2
                        passRefs failRefs hndr hok)
                | some canon =>
                    rw [hm] at hok
                    dsimp only at hok
                    exact VdrSpec_cons_pass hhr hrne hm
                      (ih stage mappings _ (pyInsert accP k r) accF h2
                        passRefs failRefs hndr hok)
            · rw [if_pos (by simp [h2a])] at hok
              simp only [Utils.handle_errorH, if_pos rfl, hhr, Bind.bind,
                Except.bind] at hok
              exact VdrSpec_cons_fail hhr hrne
                (ih stage mappings _ accP (pyInsert accF k r) h2 passRefs
                  failRefs hndr hok)
      | none =>
          rw [hhr] at hok
          simp [Utils.handle_errorH, hhr, Bind.bind, Except.bind] at hok
      | bool b =>
          rw [hhr] at hok
          simp [Utils.handle_errorH, hhr, Bind.bind, Except.bind] at hok
      | int n =>
          rw [hhr] at hok
          simp [Utils.handle_errorH, hhr, Bind.bind, Except.bind] at hok
      | str s =>
          rw [hhr] at hok
          simp [Utils.handle_errorH, hhr, Bind.bind, Except.bind] at hok
      | list items =>
          rw [hhr] at hok
          simp [Utils.handle_errorH, hhr, Bind.bind, Except.bind] at hok

/-- C10.  Input aliasing and in-place mutation: in tolerant mode, when the
store-passing `validate_decision_response` returns, every pass-map entry is
one of the key and reference pairs of the caller — the same dict object, not a
copy — and the store at that reference holds the original dict with exactly
its `decision` field overwritten by the normalized canonical value; every
fail-map entry is likewise such an input pair whose object received
exactly a `stage + "_error"` annotation; and every reference outside the
decisions map is untouched.  That only the named field changes is the content
of `pyGet?_pyInsert_ne`; references must be distinct, as dict values of
distinct keys are in CPython unless explicitly aliased. -/
theorem c10_vdr_aliasing_frame (h : Utils.Heap)
    (decisions : List (String × Nat)) (stage : String)
    (mappings : List (String × String)) (h2 : Utils.Heap)
    (passRefs failRefs : List (String × Nat))
    (hnd : (decisions.map Prod.snd).Nodup)
    (hok : Utils.validate_decision_responseH h decisions true stage mappings =
      .ok (h2, passRefs, failRefs)) :
    (∀ kr ∈ passRefs, kr ∈ decisions ∧ ∃ fields canon,
        h kr.2 = PyVal.dict fields ∧
        h2 kr.2 = PyVal.dict (pyInsert fields "decision" (PyVal.str canon)) ∧
        pyGet? mappings (pyLower (pyStripS (pyStr
          ((pyGet? fields "decision").getD PyVal.none)))) = some canon) ∧
    (∀ kr ∈ failRefs, kr ∈ decisions ∧ ∃ fields msg,
        h kr.2 = PyVal.dict fields ∧
        h2 kr.2 = PyVal.dict (pyInsert fields (stage ++ "_error")
          (PyVal.str msg))) ∧
    (∀ r, r ∉ decisions.map Prod.snd → h2 r = h r) := by
  obtain ⟨hp, hf, hframe⟩ := vdrLoopH_spec decisions stage mappings h [] [] h2
    passRefs failRefs hnd hok
  refine ⟨?_, ?_, hframe⟩
  · intro kr hkr
    rcases hp kr hkr with hacc | hnew
    · simp at hacc
    · exact hnew
  · intro kr hkr
    rcases hf kr hkr with hacc | hnew
    · simp at hacc
    · exact hnew

/-- Witness for C10: one screening record holding `TRUE.`; the run returns
the same reference with the decision normalized in place, and the frame
conjunct of the theorem applies. -/
theorem c10_vdr_aliasing_frame_witness :
    (([("a", (0 : Nat))].map Prod.snd).Nodup) ∧
    (Utils.validate_decision_responseH
      (fun _ => PyVal.dict
        [("decision", PyVal.str "TRUE."), ("reasoning", PyVal.str "r")])
      [("a", 0)] true "screening"
      (Validation.get_common_variations ["true", "false"]) =
      .ok (Utils.hUpdate
        (fun _ => PyVal.dict
          [("decision", PyVal.str "TRUE."), ("reasoning", PyVal.str "r")]) 0
        (PyVal.dict (pyInsert
          [("decision", PyVal.str "TRUE."), ("reasoning", PyVal.str "r")]
          "decision" (PyVal.str "true"))),
        [("a", 0)], [])) ∧
    (∀ r, r ∉ [("a", (0 : Nat))].map Prod.snd →
      Utils.hUpdate
        (fun _ => PyVal.dict
          [("decision", PyVal.str "TRUE."), ("reasoning", PyVal.str "r")]) 0
        (PyVal.dict (pyInsert
          [("decision", PyVal.str "TRUE."), ("reasoning", PyVal.str "r")]
          "decision" (PyVal.str "true"))) r =
      (fun _ => PyVal.dict
        [("decision", PyVal.str "TRUE."), ("reasoning", PyVal.str "r")]) r) :=
  ⟨by decide, rfl,
    (c10_vdr_aliasing_frame
      (fun _ => PyVal.dict
        [("decision", PyVal.str "TRUE."), ("reasoning", PyVal.str "r")])
      [("a", 0)] "screening"
      (Validation.get_common_variations ["true", "false"]) _ _ _
      (by decide) rfl).2.2⟩

end LiteratureAgent
